import Mathlib

/-
Shallow embedding of the software rasterizer (core.rs, rasterization.rs).

Floating-point scalars (f32) are embedded as exact rationals: every f32
operation the claims touch is a field operation or a comparison, which the
embedding performs exactly.  The square root used by nalgebra's normalize is
kept as an explicit function parameter, since no claim depends on its value.
Rust numeric casts (as u8, as usize, as i32) are modelled with their
truncating / saturating semantics.  Fallible code (assert! and
try_inverse().expect, i.e. panics) is modelled with Option: none is a panic.
Buffers (Box<[u8]>, Box<[f32]>) are modelled as total functions from index
to cell value, with in-range writes as pointwise updates; the byte-range
validity of writes (data length = width * height * bpp with bpp = 4) is the
source's RGBA8888 well-formedness invariant.
-/

namespace SWR

/-- Smallest finite f32 value, std::f32::MIN = -(2 - 2^-23) * 2^127,
used as the depth-buffer sentinel in core.rs. -/
def F32_MIN : ℚ := -(2 ^ 128 - 2 ^ 104)

/-- Truncation toward zero of a rational, as Rust float-to-integer casts do. -/
def ratTrunc (q : ℚ) : ℤ :=
  if 0 ≤ q then Int.floor q else -Int.floor (-q)

/-- Rust cast f32 as u8: truncate toward zero, then saturate to 0..255. -/
def u8ofRat (q : ℚ) : ℕ :=
  if q ≤ 0 then 0 else min 255 (Int.floor q).toNat

/-- Rust cast f32 as usize (64-bit): truncate toward zero, saturate to
0..2^64-1. -/
def ratToUsize (q : ℚ) : ℕ :=
  if q ≤ 0 then 0 else min (2 ^ 64 - 1) (Int.floor q).toNat

/-- Rust cast f32 as i32: truncate toward zero, saturate to the i32 range. -/
def ratToI32 (q : ℚ) : ℤ :=
  max (-(2 ^ 31)) (min (2 ^ 31 - 1) (ratTrunc q))

/-- Rust cast i32 as usize: reinterpret two's complement, i.e. wrap
modulo 2^64. -/
def i32ToUsize (i : ℤ) : ℕ :=
  (i % 2 ^ 64).toNat

/-- Pointwise store into a buffer modelled as a function from index to cell. -/
def upd {α : Type} (f : ℕ → α) (i : ℕ) (v : α) : ℕ → α :=
  fun j => if j = i then v else f j

/-- Color in RGBA8888 format (core.rs): four unsigned 8-bit channels,
embedded as naturals. -/
structure Color where
  r : ℕ
  g : ℕ
  b : ℕ
  a : ℕ
deriving DecidableEq, Repr

/-- nalgebra Vector3 of f32, embedded over the rationals. -/
@[ext]
structure Vec3 where
  x : ℚ
  y : ℚ
  z : ℚ
deriving DecidableEq, Repr

/-- nalgebra Vector4 of f32, embedded over the rationals. -/
@[ext]
structure Vec4 where
  x : ℚ
  y : ℚ
  z : ℚ
  w : ℚ
deriving DecidableEq, Repr

/-- Componentwise difference of 3-vectors. -/
def sub3 (u v : Vec3) : Vec3 := ⟨u.x - v.x, u.y - v.y, u.z - v.z⟩

/-- Componentwise sum of 3-vectors. -/
def add3 (u v : Vec3) : Vec3 := ⟨u.x + v.x, u.y + v.y, u.z + v.z⟩

/-- Dot product of 3-vectors. -/
def dot3 (u v : Vec3) : ℚ := u.x * v.x + u.y * v.y + u.z * v.z

/-- Scalar multiple of a 3-vector. -/
def smul3 (c : ℚ) (v : Vec3) : Vec3 := ⟨c * v.x, c * v.y, c * v.z⟩

/-- nalgebra normalize: v scaled by the reciprocal of its euclidean norm.
The square root is not rational, so it is passed in as a function; no claim
depends on its value. -/
def normalizeWith (sqrtFn : ℚ → ℚ) (v : Vec3) : Vec3 :=
  smul3 (1 / sqrtFn (dot3 v v)) v

/-- Display buffer (core.rs lines 145-156): pixel bytes plus a parallel
depth buffer, with the width / height / bytes-per-pixel metadata. -/
structure DisplayBuffer where
  width : ℕ
  height : ℕ
  bpp : ℕ
  data : ℕ → ℕ
  z_buffer : ℕ → ℚ

namespace DisplayBuffer

/-- DisplayBuffer::new (core.rs lines 159-167): zero-filled pixel bytes,
depth cells all std::f32::MIN. -/
def new (width height bpp : ℕ) : DisplayBuffer :=
  { width := width
    height := height
    bpp := bpp
    data := fun _ => 0
    z_buffer := fun _ => F32_MIN }

/-- DisplayBuffer::size (core.rs lines 170-172). -/
def size (buf : DisplayBuffer) : ℕ := buf.height * buf.width * buf.bpp

/-- DisplayBuffer::num_pixels (core.rs lines 175-177). -/
def num_pixels (buf : DisplayBuffer) : ℕ := buf.height * buf.width

/-- DisplayBuffer::clear (core.rs lines 180-184): reallocate the data bytes
to zero and every depth cell to std::f32::MIN. -/
def clear (buf : DisplayBuffer) : DisplayBuffer :=
  { buf with data := fun _ => 0, z_buffer := fun _ => F32_MIN }

/-- DisplayBuffer::set_pixel (core.rs lines 193-207).  The two assert!
statements are modelled as Option guards (none is a panic); then the
flipped-Y row-major index, the redundant bounds check, and the strict
depth test guarding the four byte writes and the depth write. -/
def set_pixel (buf : DisplayBuffer) (x y : ℕ) (z : ℚ) (color : Color) :
    Option DisplayBuffer :=
  if x < buf.width then
    if y < buf.height then
      let index : ℕ := (buf.height - y - 1) * buf.width + x
      if index < buf.num_pixels then
        if buf.z_buffer index < z then
          some { buf with
            z_buffer := upd buf.z_buffer index z
            data :=
              upd (upd (upd (upd buf.data
                (index * buf.bpp) color.r)
                (index * buf.bpp + 1) color.g)
                (index * buf.bpp + 2) color.b)
                (index * buf.bpp + 3) color.a }
        else some buf
      else some buf
    else none
  else none

end DisplayBuffer

/-- nalgebra Matrix3 of f32 (row r, column c), embedded over the rationals. -/
@[ext]
structure Mat3 where
  m00 : ℚ
  m01 : ℚ
  m02 : ℚ
  m10 : ℚ
  m11 : ℚ
  m12 : ℚ
  m20 : ℚ
  m21 : ℚ
  m22 : ℚ
deriving DecidableEq, Repr

/-- nalgebra Matrix4 of f32 (row r, column c), embedded over the rationals. -/
@[ext]
structure Mat4 where
  m00 : ℚ
  m01 : ℚ
  m02 : ℚ
  m03 : ℚ
  m10 : ℚ
  m11 : ℚ
  m12 : ℚ
  m13 : ℚ
  m20 : ℚ
  m21 : ℚ
  m22 : ℚ
  m23 : ℚ
  m30 : ℚ
  m31 : ℚ
  m32 : ℚ
  m33 : ℚ
deriving DecidableEq, Repr

/-- Matrix3 times Vector3. -/
def mul3v (m : Mat3) (v : Vec3) : Vec3 :=
  ⟨m.m00 * v.x + m.m01 * v.y + m.m02 * v.z,
   m.m10 * v.x + m.m11 * v.y + m.m12 * v.z,
   m.m20 * v.x + m.m21 * v.y + m.m22 * v.z⟩

/-- Matrix3 times Matrix3. -/
def mul3 (a b : Mat3) : Mat3 :=
  ⟨a.m00 * b.m00 + a.m01 * b.m10 + a.m02 * b.m20,
   a.m00 * b.m01 + a.m01 * b.m11 + a.m02 * b.m21,
   a.m00 * b.m02 + a.m01 * b.m12 + a.m02 * b.m22,
   a.m10 * b.m00 + a.m11 * b.m10 + a.m12 * b.m20,
   a.m10 * b.m01 + a.m11 * b.m11 + a.m12 * b.m21,
   a.m10 * b.m02 + a.m11 * b.m12 + a.m12 * b.m22,
   a.m20 * b.m00 + a.m21 * b.m10 + a.m22 * b.m20,
   a.m20 * b.m01 + a.m21 * b.m11 + a.m22 * b.m21,
   a.m20 * b.m02 + a.m21 * b.m12 + a.m22 * b.m22⟩

/-- Identity Matrix3. -/
def id3 : Mat3 := ⟨1, 0, 0, 0, 1, 0, 0, 0, 1⟩

/-- Matrix4 times Vector4. -/
def mul4v (m : Mat4) (v : Vec4) : Vec4 :=
  ⟨m.m00 * v.x + m.m01 * v.y + m.m02 * v.z + m.m03 * v.w,
   m.m10 * v.x + m.m11 * v.y + m.m12 * v.z + m.m13 * v.w,
   m.m20 * v.x + m.m21 * v.y + m.m22 * v.z + m.m23 * v.w,
   m.m30 * v.x + m.m31 * v.y + m.m32 * v.z + m.m33 * v.w⟩

/-- Identity Matrix4. -/
def id4 : Mat4 := ⟨1, 0, 0, 0, 0, 1, 0, 0, 0, 0, 1, 0, 0, 0, 0, 1⟩

/-- Transpose of a Matrix3. -/
def transpose3 (m : Mat3) : Mat3 :=
  ⟨m.m00, m.m10, m.m20, m.m01, m.m11, m.m21, m.m02, m.m12, m.m22⟩

/-- Determinant of a Matrix3 (cofactor expansion along the first row, as
nalgebra computes it). -/
def det3 (m : Mat3) : ℚ :=
  m.m00 * (m.m11 * m.m22 - m.m12 * m.m21) -
  m.m01 * (m.m10 * m.m22 - m.m12 * m.m20) +
  m.m02 * (m.m10 * m.m21 - m.m11 * m.m20)

/-- The adjugate of a Matrix3 divided by its determinant: the value
nalgebra's try_inverse produces when the determinant is nonzero. -/
def inv3aux (m : Mat3) : Mat3 :=
  ⟨(m.m11 * m.m22 - m.m12 * m.m21) / det3 m,
   -(m.m01 * m.m22 - m.m02 * m.m21) / det3 m,
   (m.m01 * m.m12 - m.m02 * m.m11) / det3 m,
   -(m.m10 * m.m22 - m.m12 * m.m20) / det3 m,
   (m.m00 * m.m22 - m.m02 * m.m20) / det3 m,
   -(m.m00 * m.m12 - m.m02 * m.m10) / det3 m,
   (m.m10 * m.m21 - m.m11 * m.m20) / det3 m,
   -(m.m00 * m.m21 - m.m01 * m.m20) / det3 m,
   (m.m00 * m.m11 - m.m01 * m.m10) / det3 m⟩

/-- nalgebra Matrix3::try_inverse: None exactly when the determinant is
zero, otherwise the adjugate divided by the determinant. -/
def try_inverse3 (m : Mat3) : Option Mat3 :=
  if det3 m = 0 then none else some (inv3aux m)

/-- The upper-left 3x3 submatrix of a Matrix4
(fixed_slice::<U3, U3>(0, 0) in core.rs line 49). -/
def ul3 (m : Mat4) : Mat3 :=
  ⟨m.m00, m.m01, m.m02, m.m10, m.m11, m.m12, m.m20, m.m21, m.m22⟩

/-- The 3x4 dimension-reduction matrix of core.rs lines 275-279 applied to a
Vector4: drops the homogeneous w component. -/
def reduceDim (v : Vec4) : Vec3 := ⟨v.x, v.y, v.z⟩

/-- Vertex (core.rs lines 21-29): color, position of the stage-dependent
vector type, and a 3-vector normal. -/
structure Vertex (T : Type) where
  color : Color
  position : T
  normal : Vec3
deriving DecidableEq

/-- Face (core.rs lines 31-38): the three vertices of a triangle. -/
structure Face (T : Type) where
  v0 : Vertex T
  v1 : Vertex T
  v2 : Vertex T
deriving DecidableEq

/-- Face::transform (core.rs lines 42-71): positions are multiplied by m,
normals by the transpose of the inverse of the upper-left 3x3 submatrix of
m.  try_inverse().expect(..) panics when that submatrix is not invertible,
modelled as none. -/
def Face.transform (f : Face Vec4) (m : Mat4) : Option (Face Vec4) :=
  match try_inverse3 (ul3 m) with
  | none => none
  | some inv =>
    let m_normal := transpose3 inv
    some
      { v0 := { position := mul4v m f.v0.position, color := f.v0.color
                normal := mul3v m_normal f.v0.normal }
        v1 := { position := mul4v m f.v1.position, color := f.v1.color
                normal := mul3v m_normal f.v1.normal }
        v2 := { position := mul4v m f.v2.position, color := f.v2.color
                normal := mul3v m_normal f.v2.normal } }

/-- A mesh (core.rs lines 211-218): world position, Euler angles, faces. -/
@[ext]
structure Mesh where
  position : Vec4
  angle : Vec3
  faces : List (Face Vec4)

/-- The 4x4 translation matrix built by Mesh::translate
(core.rs lines 414-419). -/
def translationMat4 (t : Vec3) : Mat4 :=
  ⟨1, 0, 0, t.x,
   0, 1, 0, t.y,
   0, 0, 1, t.z,
   0, 0, 0, 1⟩

/-- Mesh::translate (core.rs lines 413-421): position is multiplied by the
translation matrix; angle and faces untouched. -/
def Mesh.translate (m : Mesh) (translation : Vec3) : Mesh :=
  { m with position := mul4v (translationMat4 translation) m.position }

/-- Mesh::rotate (core.rs lines 428-432): componentwise addition into the
Euler angle vector; position and faces untouched. -/
def Mesh.rotate (m : Mesh) (angle : Vec3) : Mesh :=
  { m with
    angle := ⟨m.angle.x + angle.x, m.angle.y + angle.y, m.angle.z + angle.z⟩ }

/-- Determinant of a 3x3 product is the product of determinants. -/
theorem det3_mul3 (a b : Mat3) : det3 (mul3 a b) = det3 a * det3 b := by
  simp only [det3, mul3]
  ring

/-- C6: Face::transform(m) panics exactly when the upper-left 3x3 submatrix
of m is singular (zero determinant, equivalently: no two-sided inverse
exists); when that submatrix is invertible the call never panics, maps each
vertex position to m * position, and maps each normal by the
inverse-transpose of the upper-left 3x3 submatrix (and the value inv3aux
used there is a genuine two-sided inverse). -/
theorem C6_transform_panics_iff_singular (f : Face Vec4) (m : Mat4) :
    (Face.transform f m = none ↔ det3 (ul3 m) = 0) ∧
    (det3 (ul3 m) = 0 →
      ¬ ∃ n : Mat3, mul3 n (ul3 m) = id3 ∧ mul3 (ul3 m) n = id3) ∧
    (det3 (ul3 m) ≠ 0 →
      Face.transform f m = some
        { v0 := { position := mul4v m f.v0.position, color := f.v0.color
                  normal := mul3v (transpose3 (inv3aux (ul3 m))) f.v0.normal }
          v1 := { position := mul4v m f.v1.position, color := f.v1.color
                  normal := mul3v (transpose3 (inv3aux (ul3 m))) f.v1.normal }
          v2 := { position := mul4v m f.v2.position, color := f.v2.color
                  normal := mul3v (transpose3 (inv3aux (ul3 m))) f.v2.normal } } ∧
      mul3 (inv3aux (ul3 m)) (ul3 m) = id3 ∧
      mul3 (ul3 m) (inv3aux (ul3 m)) = id3) := by
  refine ⟨?_, ?_, ?_⟩
  · unfold Face.transform try_inverse3
    by_cases h : det3 (ul3 m) = 0 <;> simp [h]
  · rintro h ⟨n, hn1, _⟩
    have hd := det3_mul3 n (ul3 m)
    rw [hn1, h, mul_zero] at hd
    have : det3 id3 = 1 := by norm_num [det3, id3]
    rw [this] at hd
    exact one_ne_zero hd
  · intro h
    refine ⟨?_, ?_, ?_⟩
    · unfold Face.transform try_inverse3
      simp [h]
    · ext <;> (simp only [mul3, inv3aux, id3]; field_simp; try simp only [det3]
               ring)
    · ext <;> (simp only [mul3, inv3aux, id3]; field_simp; try simp only [det3]
               ring)

/-- Witness for C6: the identity model matrix has nonsingular upper-left
3x3 submatrix, and the transform of a concrete face under it leaves the
face as it is. -/
theorem C6_transform_witness :
    det3 (ul3 id4) ≠ 0 ∧
    Face.transform
      (Face.mk
        (Vertex.mk (Color.mk 10 20 30 40) (Vec4.mk 1 2 3 1) (Vec3.mk 0 0 1))
        (Vertex.mk (Color.mk 1 2 3 4) (Vec4.mk 0 1 0 1) (Vec3.mk 0 1 0))
        (Vertex.mk (Color.mk 5 6 7 8) (Vec4.mk 0 0 2 1) (Vec3.mk 1 0 0)))
      id4 = some
      (Face.mk
        (Vertex.mk (Color.mk 10 20 30 40) (Vec4.mk 1 2 3 1) (Vec3.mk 0 0 1))
        (Vertex.mk (Color.mk 1 2 3 4) (Vec4.mk 0 1 0 1) (Vec3.mk 0 1 0))
        (Vertex.mk (Color.mk 5 6 7 8) (Vec4.mk 0 0 2 1) (Vec3.mk 1 0 0))) := by
  refine ⟨by norm_num [det3, ul3, id4], ?_⟩
  have h := (C6_transform_panics_iff_singular
    (Face.mk
      (Vertex.mk (Color.mk 10 20 30 40) (Vec4.mk 1 2 3 1) (Vec3.mk 0 0 1))
      (Vertex.mk (Color.mk 1 2 3 4) (Vec4.mk 0 1 0 1) (Vec3.mk 0 1 0))
      (Vertex.mk (Color.mk 5 6 7 8) (Vec4.mk 0 0 2 1) (Vec3.mk 1 0 0)))
    id4).2.2 (by norm_num [det3, ul3, id4])
  rw [h.1]
  norm_num [mul4v, mul3v, transpose3, inv3aux, det3, ul3, id4]

/-- C8: rotate adds its argument componentwise into angle (so two rotates
compose to the rotate of the sum) and leaves position and faces unchanged;
translate multiplies position by the translation matrix, which under the
homogeneous invariant w = 1 adds the argument componentwise to x, y, z, and
two translates compose to the translate of the sum. -/
theorem C8_translate_rotate_compose (m : Mesh) (a b t s : Vec3) :
    (m.rotate a).angle = add3 m.angle a ∧
    (m.rotate a).rotate b = m.rotate (add3 a b) ∧
    (m.rotate a).position = m.position ∧
    (m.rotate a).faces = m.faces ∧
    (m.translate t).position = mul4v (translationMat4 t) m.position ∧
    (m.position.w = 1 →
      (m.translate t).position =
        ⟨m.position.x + t.x, m.position.y + t.y, m.position.z + t.z, 1⟩) ∧
    (m.translate t).translate s = m.translate (add3 t s) := by
  refine ⟨rfl, ?_, rfl, rfl, rfl, ?_, ?_⟩
  · refine Mesh.ext rfl ?_ rfl
    refine Vec3.ext ?_ ?_ ?_ <;> (simp only [Mesh.rotate, add3]; ring)
  · intro hw
    refine Vec4.ext ?_ ?_ ?_ ?_ <;>
      (simp only [Mesh.translate, translationMat4, mul4v, hw]; ring)
  · refine Mesh.ext ?_ rfl rfl
    refine Vec4.ext ?_ ?_ ?_ ?_ <;>
      (simp only [Mesh.translate, translationMat4, mul4v, add3]; ring)

/-- Witness for C8: a mesh at the homogeneous origin translated by (1,2,3)
ends up with position (1,2,3,1). -/
theorem C8_translate_witness :
    (Mesh.mk (Vec4.mk 0 0 0 1) (Vec3.mk 0 0 0) []).position.w = 1 ∧
    ((Mesh.mk (Vec4.mk 0 0 0 1) (Vec3.mk 0 0 0) []).translate
      (Vec3.mk 1 2 3)).position = Vec4.mk 1 2 3 1 := by
  refine ⟨rfl, ?_⟩
  have h := (C8_translate_rotate_compose
    (Mesh.mk (Vec4.mk 0 0 0 1) (Vec3.mk 0 0 0) [])
    (Vec3.mk 0 0 0) (Vec3.mk 0 0 0) (Vec3.mk 1 2 3)
    (Vec3.mk 0 0 0)).2.2.2.2.2.1 rfl
  rw [h]
  norm_num

/-- C7: after clear() every data byte is 0 and every depth cell is
std::f32::MIN while width, height and bpp are unchanged; a freshly
constructed DisplayBuffer::new(width, height, bpp) is in the same
all-zero data / all-minimum depth state. -/
theorem C7_clear_and_new (buf : DisplayBuffer) (w h bpp i j : ℕ) :
    buf.clear.data i = 0 ∧ buf.clear.z_buffer j = F32_MIN ∧
    buf.clear.width = buf.width ∧ buf.clear.height = buf.height ∧
    buf.clear.bpp = buf.bpp ∧
    (DisplayBuffer.new w h bpp).data i = 0 ∧
    (DisplayBuffer.new w h bpp).z_buffer j = F32_MIN ∧
    (DisplayBuffer.new w h bpp).width = w ∧
    (DisplayBuffer.new w h bpp).height = h ∧
    (DisplayBuffer.new w h bpp).bpp = bpp := by
  refine ⟨rfl, rfl, rfl, rfl, rfl, rfl, rfl, rfl, rfl, rfl⟩

/-- The flipped-Y row-major pixel index is always below the pixel count, so
the redundant in-source bounds check at core.rs line 198 always passes. -/
theorem flipIndex_lt {w h x y : ℕ} (hx : x < w) (hy : y < h) :
    (h - y - 1) * w + x < h * w := by
  have h1 : h - y - 1 + 1 ≤ h := by omega
  calc (h - y - 1) * w + x < (h - y - 1) * w + w := by omega
    _ = (h - y - 1 + 1) * w := by ring
    _ ≤ h * w := Nat.mul_le_mul_right w h1

/-- In-bounds set_pixel whose z wins the depth test writes depth and the
four color bytes. -/
theorem set_pixel_pass {buf : DisplayBuffer} {x y : ℕ} {z : ℚ} {c : Color}
    (hx : x < buf.width) (hy : y < buf.height)
    (hz : buf.z_buffer ((buf.height - y - 1) * buf.width + x) < z) :
    buf.set_pixel x y z c = some
      { buf with
        z_buffer := upd buf.z_buffer ((buf.height - y - 1) * buf.width + x) z
        data :=
          upd (upd (upd (upd buf.data
            (((buf.height - y - 1) * buf.width + x) * buf.bpp) c.r)
            (((buf.height - y - 1) * buf.width + x) * buf.bpp + 1) c.g)
            (((buf.height - y - 1) * buf.width + x) * buf.bpp + 2) c.b)
            (((buf.height - y - 1) * buf.width + x) * buf.bpp + 3) c.a } := by
  unfold DisplayBuffer.set_pixel
  rw [if_pos hx, if_pos hy]
  simp only [DisplayBuffer.num_pixels]
  rw [if_pos (flipIndex_lt hx hy), if_pos hz]

/-- In-bounds set_pixel whose z loses the depth test leaves the buffer
exactly as it was. -/
theorem set_pixel_fail {buf : DisplayBuffer} {x y : ℕ} {z : ℚ} {c : Color}
    (hx : x < buf.width) (hy : y < buf.height)
    (hz : ¬ buf.z_buffer ((buf.height - y - 1) * buf.width + x) < z) :
    buf.set_pixel x y z c = some buf := by
  unfold DisplayBuffer.set_pixel
  rw [if_pos hx, if_pos hy]
  simp only [DisplayBuffer.num_pixels]
  rw [if_pos (flipIndex_lt hx hy), if_neg hz]

/-- Reading back the four bytes just written by a passing set_pixel. -/
theorem upd4_reads (data : ℕ → ℕ) (b : ℕ) (r g bl a : ℕ) :
    upd (upd (upd (upd data b r) (b + 1) g) (b + 2) bl) (b + 3) a b = r ∧
    upd (upd (upd (upd data b r) (b + 1) g) (b + 2) bl) (b + 3) a (b + 1) = g ∧
    upd (upd (upd (upd data b r) (b + 1) g) (b + 2) bl) (b + 3) a (b + 2) = bl ∧
    upd (upd (upd (upd data b r) (b + 1) g) (b + 2) bl) (b + 3) a (b + 3) = a := by
  refine ⟨?_, ?_, ?_, ?_⟩ <;> (simp only [upd]; norm_num)

/-- A sequence of set_pixel calls at a fixed coordinate, each given as a
depth and a color, folded over the buffer; none is a panic of any call. -/
def applyCalls (x y : ℕ) (calls : List (ℚ × Color)) (buf : DisplayBuffer) :
    Option DisplayBuffer :=
  match calls with
  | [] => some buf
  | c :: rest =>
    match buf.set_pixel x y c.1 c.2 with
    | none => none
    | some b => applyCalls x y rest b

/-- The subsequence of calls that win the depth test at call time, given the
depth stored before the sequence starts: each winning call raises the bar
for the calls after it. -/
def acceptedCalls (d : ℚ) : List (ℚ × Color) → List (ℚ × Color)
  | [] => []
  | c :: rest =>
    if d < c.1 then c :: acceptedCalls c.1 rest else acceptedCalls d rest

/-- Every accepted call's depth strictly exceeds the starting depth. -/
theorem acceptedCalls_gt {p : ℚ × Color} :
    ∀ {l : List (ℚ × Color)} {d : ℚ}, p ∈ acceptedCalls d l → d < p.1 := by
  intro l
  induction l with
  | nil => intro d h; simp [acceptedCalls] at h
  | cons c rest ih =>
    intro d h
    unfold acceptedCalls at h
    by_cases hd : d < c.1
    · rw [if_pos hd] at h
      rcases List.mem_cons.mp h with h1 | h2
      · exact h1 ▸ hd
      · exact lt_trans hd (ih h2)
    · rw [if_neg hd] at h
      exact ih h

/-- The last element of a one-element list. -/
theorem getLast?_single {α : Type} (a : α) : ([a] : List α).getLast? = some a := by
  simp

/-- Last element of a list is a member. -/
theorem getLast?_mem' {α : Type} :
    ∀ {l : List α} {a : α}, l.getLast? = some a → a ∈ l := by
  intro l
  induction l with
  | nil => intro a h; simp at h
  | cons x rest ih =>
    intro a h
    cases rest with
    | nil => simp at h; simp [h]
    | cons y t =>
      rw [List.getLast?_cons_cons] at h
      exact List.mem_cons_of_mem x (ih h)

/-- Main invariant for C1: an in-bounds call sequence never panics, keeps
the buffer dimensions, and its effect at the addressed pixel is decided by
the accepted subsequence: no accepted call means the buffer is untouched,
otherwise depth and color bytes are those of the final accepted call. -/
theorem applyCalls_spec (x y : ℕ) (calls : List (ℚ × Color)) :
    ∀ buf : DisplayBuffer, x < buf.width → y < buf.height →
    ∃ buf', applyCalls x y calls buf = some buf' ∧
      buf'.width = buf.width ∧ buf'.height = buf.height ∧
      buf'.bpp = buf.bpp ∧
      (acceptedCalls
        (buf.z_buffer ((buf.height - y - 1) * buf.width + x)) calls = [] →
        buf' = buf) ∧
      (∀ lc, (acceptedCalls
          (buf.z_buffer ((buf.height - y - 1) * buf.width + x))
          calls).getLast? = some lc →
        buf'.z_buffer ((buf.height - y - 1) * buf.width + x) = lc.1 ∧
        buf'.data (((buf.height - y - 1) * buf.width + x) * buf.bpp) = lc.2.r ∧
        buf'.data (((buf.height - y - 1) * buf.width + x) * buf.bpp + 1) = lc.2.g ∧
        buf'.data (((buf.height - y - 1) * buf.width + x) * buf.bpp + 2) = lc.2.b ∧
        buf'.data (((buf.height - y - 1) * buf.width + x) * buf.bpp + 3) = lc.2.a ∧
        ∀ p ∈ acceptedCalls
          (buf.z_buffer ((buf.height - y - 1) * buf.width + x)) calls,
          p.1 ≤ lc.1) := by
  induction calls with
  | nil =>
    intro buf hx hy
    exact ⟨buf, rfl, rfl, rfl, rfl, fun _ => rfl,
      fun lc h => by simp [acceptedCalls] at h⟩
  | cons c rest ih =>
    intro buf hx hy
    by_cases hz :
        buf.z_buffer ((buf.height - y - 1) * buf.width + x) < c.1
    · -- the head call wins the depth test and writes
      have hpass := set_pixel_pass (c := c.2) hx hy hz
      obtain ⟨buf', happ, hw', hh', hbpp', hempty, hlast⟩ :=
        ih { buf with
          z_buffer := upd buf.z_buffer ((buf.height - y - 1) * buf.width + x) c.1
          data :=
            upd (upd (upd (upd buf.data
              (((buf.height - y - 1) * buf.width + x) * buf.bpp) c.2.r)
              (((buf.height - y - 1) * buf.width + x) * buf.bpp + 1) c.2.g)
              (((buf.height - y - 1) * buf.width + x) * buf.bpp + 2) c.2.b)
              (((buf.height - y - 1) * buf.width + x) * buf.bpp + 3) c.2.a }
          hx hy
      simp only [upd, eq_self_iff_true, if_true] at hempty hlast
      refine ⟨buf', ?_, hw', hh', hbpp', ?_, ?_⟩
      · unfold applyCalls
        rw [hpass]
        exact happ
      · intro hacc
        exfalso
        unfold acceptedCalls at hacc
        rw [if_pos hz] at hacc
        exact List.cons_ne_nil _ _ hacc
      · intro lc hlc
        unfold acceptedCalls at hlc ⊢
        rw [if_pos hz] at hlc ⊢
        rcases heq : acceptedCalls c.1 rest with _ | ⟨q, qs⟩
        · -- the head call is the only accepted call
          rw [heq] at hlc
          rw [getLast?_single] at hlc
          replace hlc := Option.some_inj.mp hlc
          have hbb : buf' = _ := hempty heq
          subst hbb
          have hreads := upd4_reads buf.data
            (((buf.height - y - 1) * buf.width + x) * buf.bpp)
            c.2.r c.2.g c.2.b c.2.a
          refine ⟨?_, ?_, ?_, ?_, ?_, ?_⟩
          · rw [← hlc]; simp [upd]
          · rw [← hlc]; exact hreads.1
          · rw [← hlc]; exact hreads.2.1
          · rw [← hlc]; exact hreads.2.2.1
          · rw [← hlc]; exact hreads.2.2.2
          · intro p hp
            simp only [List.mem_singleton] at hp
            rw [hp, ← hlc]
        · -- later accepted calls exist; the tail decides the pixel
          rw [heq] at hlc
          rw [List.getLast?_cons_cons] at hlc
          rw [heq] at hlast
          obtain ⟨hz', hr, hg, hbl, ha, hmax⟩ := hlast lc hlc
          have hlcmem : lc ∈ acceptedCalls c.1 rest := by
            rw [heq]
            exact getLast?_mem' hlc
          have hcl : c.1 < lc.1 := acceptedCalls_gt hlcmem
          refine ⟨hz', hr, hg, hbl, ha, ?_⟩
          intro p hp
          rcases List.mem_cons.mp hp with h1 | h2
          · rw [h1]; exact le_of_lt hcl
          · exact hmax p h2
    · -- the head call loses the depth test and changes nothing
      have hfail := set_pixel_fail (c := c.2) hx hy hz
      obtain ⟨buf', happ, hw', hh', hbpp', hempty, hlast⟩ := ih buf hx hy
      refine ⟨buf', ?_, hw', hh', hbpp', ?_, ?_⟩
      · unfold applyCalls
        rw [hfail]
        exact happ
      · intro hacc
        unfold acceptedCalls at hacc
        rw [if_neg hz] at hacc
        exact hempty hacc
      · intro lc hlc
        unfold acceptedCalls at hlc
        rw [if_neg hz] at hlc
        have hl := hlast lc hlc
        refine ⟨hl.1, hl.2.1, hl.2.2.1, hl.2.2.2.1, hl.2.2.2.2.1, ?_⟩
        intro p hp
        refine hl.2.2.2.2.2 p ?_
        unfold acceptedCalls at hp
        rw [if_neg hz] at hp
        exact hp

/-- C1: an in-bounds set_pixel at flipped-Y index i overwrites depth and the
four color bytes exactly when the stored depth is strictly below z, and
leaves the buffer untouched otherwise; consequently a sequence of in-bounds
calls at a fixed coordinate stores the color of the final (equivalently,
maximum-z) call among those that won the depth test at call time, and
leaves the buffer untouched when no call won. -/
theorem C1_set_pixel_depth_policy (buf : DisplayBuffer) (x y : ℕ) (z : ℚ)
    (c : Color) (calls : List (ℚ × Color)) (i : ℕ)
    (hx : x < buf.width) (hy : y < buf.height)
    (hi : i = (buf.height - y - 1) * buf.width + x) :
    (buf.z_buffer i < z →
      ∃ buf1, buf.set_pixel x y z c = some buf1 ∧
        buf1.z_buffer i = z ∧
        buf1.data (i * buf.bpp) = c.r ∧
        buf1.data (i * buf.bpp + 1) = c.g ∧
        buf1.data (i * buf.bpp + 2) = c.b ∧
        buf1.data (i * buf.bpp + 3) = c.a) ∧
    (¬ buf.z_buffer i < z → buf.set_pixel x y z c = some buf) ∧
    (∃ buf', applyCalls x y calls buf = some buf' ∧
      (acceptedCalls (buf.z_buffer i) calls = [] → buf' = buf) ∧
      (∀ lc, (acceptedCalls (buf.z_buffer i) calls).getLast? = some lc →
        buf'.z_buffer i = lc.1 ∧
        buf'.data (i * buf.bpp) = lc.2.r ∧
        buf'.data (i * buf.bpp + 1) = lc.2.g ∧
        buf'.data (i * buf.bpp + 2) = lc.2.b ∧
        buf'.data (i * buf.bpp + 3) = lc.2.a ∧
        ∀ p ∈ acceptedCalls (buf.z_buffer i) calls, p.1 ≤ lc.1)) := by
  subst hi
  refine ⟨?_, ?_, ?_⟩
  · intro hz
    refine ⟨_, set_pixel_pass hx hy hz, ?_, ?_, ?_, ?_, ?_⟩
    · simp [upd]
    · exact (upd4_reads buf.data _ c.r c.g c.b c.a).1
    · exact (upd4_reads buf.data _ c.r c.g c.b c.a).2.1
    · exact (upd4_reads buf.data _ c.r c.g c.b c.a).2.2.1
    · exact (upd4_reads buf.data _ c.r c.g c.b c.a).2.2.2
  · intro hz
    exact set_pixel_fail hx hy hz
  · obtain ⟨buf', happ, _, _, _, hempty, hlast⟩ :=
      applyCalls_spec x y calls buf hx hy
    exact ⟨buf', happ, hempty, hlast⟩

/-- Witness for C1: on a fresh 2x2 RGBA buffer, a single call list with
depth 0 beating the sentinel stores that call's color at index 2. -/
theorem C1_set_pixel_witness :
    0 < (DisplayBuffer.new 2 2 4).width ∧
    0 < (DisplayBuffer.new 2 2 4).height ∧
    (2 : ℕ) = ((DisplayBuffer.new 2 2 4).height - 0 - 1) *
      (DisplayBuffer.new 2 2 4).width + 0 ∧
    (∃ buf', applyCalls 0 0 [((0 : ℚ), Color.mk 9 8 7 6)]
        (DisplayBuffer.new 2 2 4) = some buf' ∧
      (acceptedCalls ((DisplayBuffer.new 2 2 4).z_buffer 2)
        [((0 : ℚ), Color.mk 9 8 7 6)] = [] → buf' = DisplayBuffer.new 2 2 4) ∧
      (∀ lc, (acceptedCalls ((DisplayBuffer.new 2 2 4).z_buffer 2)
          [((0 : ℚ), Color.mk 9 8 7 6)]).getLast? = some lc →
        buf'.z_buffer 2 = lc.1 ∧
        buf'.data (2 * (DisplayBuffer.new 2 2 4).bpp) = lc.2.r ∧
        buf'.data (2 * (DisplayBuffer.new 2 2 4).bpp + 1) = lc.2.g ∧
        buf'.data (2 * (DisplayBuffer.new 2 2 4).bpp + 2) = lc.2.b ∧
        buf'.data (2 * (DisplayBuffer.new 2 2 4).bpp + 3) = lc.2.a ∧
        ∀ p ∈ acceptedCalls ((DisplayBuffer.new 2 2 4).z_buffer 2)
          [((0 : ℚ), Color.mk 9 8 7 6)], p.1 ≤ lc.1)) := by
  have h1 : 0 < (DisplayBuffer.new 2 2 4).width := by
    norm_num [DisplayBuffer.new]
  have h2 : 0 < (DisplayBuffer.new 2 2 4).height := by
    norm_num [DisplayBuffer.new]
  have h3 : (2 : ℕ) = ((DisplayBuffer.new 2 2 4).height - 0 - 1) *
      (DisplayBuffer.new 2 2 4).width + 0 := by
    norm_num [DisplayBuffer.new]
  exact ⟨h1, h2, h3,
    (C1_set_pixel_depth_policy (DisplayBuffer.new 2 2 4) 0 0 0
      (Color.mk 1 2 3 4) [((0 : ℚ), Color.mk 9 8 7 6)] 2 h1 h2 h3).2.2⟩

/-- C10: an in-bounds set_pixel call never panics, keeps the width, height
and bpp fields, and modifies at most the addressed pixel: every depth cell
other than index i and every data byte outside i*bpp .. i*bpp+3 keeps its
prior value, whether or not the depth test passes. -/
theorem C10_set_pixel_frame (buf : DisplayBuffer) (x y : ℕ) (z : ℚ)
    (c : Color) (i : ℕ)
    (hx : x < buf.width) (hy : y < buf.height)
    (hi : i = (buf.height - y - 1) * buf.width + x) :
    ∃ buf', buf.set_pixel x y z c = some buf' ∧
      buf'.width = buf.width ∧ buf'.height = buf.height ∧
      buf'.bpp = buf.bpp ∧
      (∀ j, j ≠ i → buf'.z_buffer j = buf.z_buffer j) ∧
      (∀ j, j < i * buf.bpp ∨ i * buf.bpp + 3 < j →
        buf'.data j = buf.data j) := by
  subst hi
  by_cases hz : buf.z_buffer ((buf.height - y - 1) * buf.width + x) < z
  · refine ⟨_, set_pixel_pass hx hy hz, rfl, rfl, rfl, ?_, ?_⟩
    · intro j hj
      simp only [upd]
      rw [if_neg hj]
    · intro j hj
      simp only [upd]
      have hb3 : j ≠ ((buf.height - y - 1) * buf.width + x) * buf.bpp + 3 := by
        omega
      have hb2 : j ≠ ((buf.height - y - 1) * buf.width + x) * buf.bpp + 2 := by
        omega
      have hb1 : j ≠ ((buf.height - y - 1) * buf.width + x) * buf.bpp + 1 := by
        omega
      have hb0 : j ≠ ((buf.height - y - 1) * buf.width + x) * buf.bpp := by
        omega
      rw [if_neg hb3, if_neg hb2, if_neg hb1, if_neg hb0]
  · exact ⟨buf, set_pixel_fail hx hy hz, rfl, rfl, rfl,
      fun _ _ => rfl, fun _ _ => rfl⟩

/-- Witness for C10: on a fresh 2x2 RGBA buffer, writing pixel (0,0) leaves
the other depth cells and bytes alone. -/
theorem C10_set_pixel_frame_witness :
    0 < (DisplayBuffer.new 2 2 4).width ∧
    0 < (DisplayBuffer.new 2 2 4).height ∧
    (2 : ℕ) = ((DisplayBuffer.new 2 2 4).height - 0 - 1) *
      (DisplayBuffer.new 2 2 4).width + 0 ∧
    (∃ buf', (DisplayBuffer.new 2 2 4).set_pixel 0 0 0 (Color.mk 1 2 3 4) =
        some buf' ∧
      buf'.width = (DisplayBuffer.new 2 2 4).width ∧
      buf'.height = (DisplayBuffer.new 2 2 4).height ∧
      buf'.bpp = (DisplayBuffer.new 2 2 4).bpp ∧
      (∀ j, j ≠ 2 → buf'.z_buffer j = (DisplayBuffer.new 2 2 4).z_buffer j) ∧
      (∀ j, j < 2 * (DisplayBuffer.new 2 2 4).bpp ∨
          2 * (DisplayBuffer.new 2 2 4).bpp + 3 < j →
        buf'.data j = (DisplayBuffer.new 2 2 4).data j)) := by
  have h1 : 0 < (DisplayBuffer.new 2 2 4).width := by
    norm_num [DisplayBuffer.new]
  have h2 : 0 < (DisplayBuffer.new 2 2 4).height := by
    norm_num [DisplayBuffer.new]
  have h3 : (2 : ℕ) = ((DisplayBuffer.new 2 2 4).height - 0 - 1) *
      (DisplayBuffer.new 2 2 4).width + 0 := by
    norm_num [DisplayBuffer.new]
  exact ⟨h1, h2, h3,
    C10_set_pixel_frame (DisplayBuffer.new 2 2 4) 0 0 0
      (Color.mk 1 2 3 4) 2 h1 h2 h3⟩

/-- Per-vertex brightness of Mesh::render (core.rs lines 299-307):
dot(normalize(eye - worldPosition), worldNormal), with the world position's
w dropped by the reduce_dim matrix. -/
def vertexBrightness (sqrtFn : ℚ → ℚ) (eye : Vec3) (v : Vertex Vec4) : ℚ :=
  dot3 (normalizeWith sqrtFn (sub3 eye (reduceDim v.position))) v.normal

/-- The NDC vertex built by Mesh::render (core.rs lines 328-341): x and y
are divided by the homogeneous w, z is kept un-divided, and every one of
the four color channels (alpha included) is scaled by the brightness and
cast back to u8. -/
def ndcVertex (v : Vertex Vec4) (b : ℚ) : Vertex Vec3 :=
  { position := ⟨v.position.x / v.position.w, v.position.y / v.position.w,
      v.position.z⟩
    color := ⟨u8ofRat ((v.color.r : ℚ) * b), u8ofRat ((v.color.g : ℚ) * b),
      u8ofRat ((v.color.b : ℚ) * b), u8ofRat ((v.color.a : ℚ) * b)⟩
    normal := v.normal }

/-- The NDC face of core.rs lines 327-370. -/
def ndcFace (f : Face Vec4) (b0 b1 b2 : ℚ) : Face Vec3 :=
  ⟨ndcVertex f.v0 b0, ndcVertex f.v1 b1, ndcVertex f.v2 b2⟩

/-- The viewport transform of core.rs lines 373-401:
raster = ((1 + ndc) * 0.5) scaled by the buffer dimension, z passed on. -/
def viewportVertex (w h : ℕ) (v : Vertex Vec3) : Vertex Vec3 :=
  { position := ⟨(1 + v.position.x) * (1 / 2) * (w : ℚ),
      (1 + v.position.y) * (1 / 2) * (h : ℚ), v.position.z⟩
    color := v.color
    normal := v.normal }

/-- The viewport-transformed face of core.rs lines 373-401. -/
def viewportFace (w h : ℕ) (f : Face Vec3) : Face Vec3 :=
  ⟨viewportVertex w h f.v0, viewportVertex w h f.v1, viewportVertex w h f.v2⟩

/-- The per-face loop body of Mesh::render (core.rs lines 273-404).  The
model, view and projection matrices are the loop-invariant values built at
lines 242-271; sqrtFn stands for the f32 square root inside normalize; the
final t_viewport.render(buffer) call is the rasterize parameter, whose
Renderable implementation for a raster-space Face is not part of this
snapshot.  The three assert!(brightness <= 1.0) statements and the panics
inside Face::transform are modelled as none. -/
def Mesh.renderFaceStep (sqrtFn : ℚ → ℚ)
    (rasterize : Face Vec3 → DisplayBuffer → Option DisplayBuffer)
    (model view projection : Mat4) (eye : Vec3)
    (t : Face Vec4) (buffer : DisplayBuffer) : Option DisplayBuffer :=
  (Face.transform t model).bind (fun face_world =>
    if vertexBrightness sqrtFn eye face_world.v0 ≤ 1 then
      if vertexBrightness sqrtFn eye face_world.v1 ≤ 1 then
        if vertexBrightness sqrtFn eye face_world.v2 ≤ 1 then
          if 0 < vertexBrightness sqrtFn eye face_world.v0 ∨
              0 < vertexBrightness sqrtFn eye face_world.v1 ∨
              0 < vertexBrightness sqrtFn eye face_world.v2 then
            (Face.transform face_world view).bind (fun triangle_view =>
              (Face.transform triangle_view projection).bind
                (fun triangle_camera =>
                  rasterize (viewportFace buffer.width buffer.height
                    (ndcFace triangle_camera
                      (vertexBrightness sqrtFn eye face_world.v0)
                      (vertexBrightness sqrtFn eye face_world.v1)
                      (vertexBrightness sqrtFn eye face_world.v2))) buffer))
          else some buffer
        else none
      else none
    else none)

/-- C3: a face is skipped (no pixel written, no view or projection or
divide stage run, for every possible rasterizer) exactly when all three
vertex brightness values are at most zero; one positive brightness sends
the face through the remaining stages into rasterization. -/
theorem C3_cull_iff_all_brightness_nonpositive (sqrtFn : ℚ → ℚ)
    (rasterize : Face Vec3 → DisplayBuffer → Option DisplayBuffer)
    (model view projection : Mat4) (eye : Vec3) (t : Face Vec4)
    (buffer : DisplayBuffer) (fw : Face Vec4)
    (hfw : Face.transform t model = some fw)
    (ha0 : vertexBrightness sqrtFn eye fw.v0 ≤ 1)
    (ha1 : vertexBrightness sqrtFn eye fw.v1 ≤ 1)
    (ha2 : vertexBrightness sqrtFn eye fw.v2 ≤ 1) :
    ((vertexBrightness sqrtFn eye fw.v0 ≤ 0 ∧
      vertexBrightness sqrtFn eye fw.v1 ≤ 0 ∧
      vertexBrightness sqrtFn eye fw.v2 ≤ 0) →
      Mesh.renderFaceStep sqrtFn rasterize model view projection eye t buffer =
        some buffer) ∧
    (∀ tv tc : Face Vec4,
      (0 < vertexBrightness sqrtFn eye fw.v0 ∨
       0 < vertexBrightness sqrtFn eye fw.v1 ∨
       0 < vertexBrightness sqrtFn eye fw.v2) →
      Face.transform fw view = some tv →
      Face.transform tv projection = some tc →
      Mesh.renderFaceStep sqrtFn rasterize model view projection eye t buffer =
        rasterize (viewportFace buffer.width buffer.height
          (ndcFace tc
            (vertexBrightness sqrtFn eye fw.v0)
            (vertexBrightness sqrtFn eye fw.v1)
            (vertexBrightness sqrtFn eye fw.v2))) buffer) := by
  constructor
  · rintro ⟨h0, h1, h2⟩
    simp only [Mesh.renderFaceStep, hfw, Option.some_bind]
    rw [if_pos ha0, if_pos ha1, if_pos ha2, if_neg]
    simp only [not_or, not_lt]
    exact ⟨h0, h1, h2⟩
  · intro tv tc hpos htv htc
    simp only [Mesh.renderFaceStep, hfw, Option.some_bind]
    rw [if_pos ha0, if_pos ha1, if_pos ha2, if_pos hpos, htv,
      Option.some_bind, htc, Option.some_bind]

/-- Witness for C3: with all transforms the identity, a unit sqrt, and a
face looking straight at the eye, the face passes the brightness test and
reaches the rasterizer (here: the rasterizer that returns the buffer). -/
theorem C3_cull_witness :
    Face.transform
      (Face.mk
        (Vertex.mk (Color.mk 250 250 250 250) (Vec4.mk 0 0 0 1) (Vec3.mk 0 0 1))
        (Vertex.mk (Color.mk 250 250 250 250) (Vec4.mk 1 0 0 1) (Vec3.mk 0 0 1))
        (Vertex.mk (Color.mk 250 250 250 250) (Vec4.mk 0 1 0 1) (Vec3.mk 0 0 1)))
      id4 = some
      (Face.mk
        (Vertex.mk (Color.mk 250 250 250 250) (Vec4.mk 0 0 0 1) (Vec3.mk 0 0 1))
        (Vertex.mk (Color.mk 250 250 250 250) (Vec4.mk 1 0 0 1) (Vec3.mk 0 0 1))
        (Vertex.mk (Color.mk 250 250 250 250) (Vec4.mk 0 1 0 1) (Vec3.mk 0 0 1)))
    ∧
    Mesh.renderFaceStep (fun _ => 1) (fun _ b => some b) id4 id4 id4
      (Vec3.mk 0 0 1)
      (Face.mk
        (Vertex.mk (Color.mk 250 250 250 250) (Vec4.mk 0 0 0 1) (Vec3.mk 0 0 1))
        (Vertex.mk (Color.mk 250 250 250 250) (Vec4.mk 1 0 0 1) (Vec3.mk 0 0 1))
        (Vertex.mk (Color.mk 250 250 250 250) (Vec4.mk 0 1 0 1) (Vec3.mk 0 0 1)))
      (DisplayBuffer.new 2 2 4) = some (DisplayBuffer.new 2 2 4) := by
  have hfw : Face.transform
      (Face.mk
        (Vertex.mk (Color.mk 250 250 250 250) (Vec4.mk 0 0 0 1) (Vec3.mk 0 0 1))
        (Vertex.mk (Color.mk 250 250 250 250) (Vec4.mk 1 0 0 1) (Vec3.mk 0 0 1))
        (Vertex.mk (Color.mk 250 250 250 250) (Vec4.mk 0 1 0 1) (Vec3.mk 0 0 1)))
      id4 = some
      (Face.mk
        (Vertex.mk (Color.mk 250 250 250 250) (Vec4.mk 0 0 0 1) (Vec3.mk 0 0 1))
        (Vertex.mk (Color.mk 250 250 250 250) (Vec4.mk 1 0 0 1) (Vec3.mk 0 0 1))
        (Vertex.mk (Color.mk 250 250 250 250) (Vec4.mk 0 1 0 1) (Vec3.mk 0 0 1))) := by
    norm_num [Face.transform, try_inverse3, det3, ul3, id4, inv3aux,
      transpose3, mul3v, mul4v]
  have hb0 : vertexBrightness (fun _ => 1) (Vec3.mk 0 0 1)
      (Vertex.mk (Color.mk 250 250 250 250) (Vec4.mk 0 0 0 1)
        (Vec3.mk 0 0 1)) = 1 := by
    norm_num [vertexBrightness, dot3, normalizeWith, smul3, sub3, reduceDim]
  have hb1 : vertexBrightness (fun _ => 1) (Vec3.mk 0 0 1)
      (Vertex.mk (Color.mk 250 250 250 250) (Vec4.mk 1 0 0 1)
        (Vec3.mk 0 0 1)) = 1 := by
    norm_num [vertexBrightness, dot3, normalizeWith, smul3, sub3, reduceDim]
  have hb2 : vertexBrightness (fun _ => 1) (Vec3.mk 0 0 1)
      (Vertex.mk (Color.mk 250 250 250 250) (Vec4.mk 0 1 0 1)
        (Vec3.mk 0 0 1)) = 1 := by
    norm_num [vertexBrightness, dot3, normalizeWith, smul3, sub3, reduceDim]
  refine ⟨hfw, ?_⟩
  have h := (C3_cull_iff_all_brightness_nonpositive (fun _ => 1)
    (fun _ b => some b) id4 id4 id4 (Vec3.mk 0 0 1)
    (Face.mk
      (Vertex.mk (Color.mk 250 250 250 250) (Vec4.mk 0 0 0 1) (Vec3.mk 0 0 1))
      (Vertex.mk (Color.mk 250 250 250 250) (Vec4.mk 1 0 0 1) (Vec3.mk 0 0 1))
      (Vertex.mk (Color.mk 250 250 250 250) (Vec4.mk 0 1 0 1) (Vec3.mk 0 0 1)))
    (DisplayBuffer.new 2 2 4)
    (Face.mk
      (Vertex.mk (Color.mk 250 250 250 250) (Vec4.mk 0 0 0 1) (Vec3.mk 0 0 1))
      (Vertex.mk (Color.mk 250 250 250 250) (Vec4.mk 1 0 0 1) (Vec3.mk 0 0 1))
      (Vertex.mk (Color.mk 250 250 250 250) (Vec4.mk 0 1 0 1) (Vec3.mk 0 0 1)))
    hfw (le_of_eq hb0) (le_of_eq hb1) (le_of_eq hb2)).2
    (Face.mk
      (Vertex.mk (Color.mk 250 250 250 250) (Vec4.mk 0 0 0 1) (Vec3.mk 0 0 1))
      (Vertex.mk (Color.mk 250 250 250 250) (Vec4.mk 1 0 0 1) (Vec3.mk 0 0 1))
      (Vertex.mk (Color.mk 250 250 250 250) (Vec4.mk 0 1 0 1) (Vec3.mk 0 0 1)))
    (Face.mk
      (Vertex.mk (Color.mk 250 250 250 250) (Vec4.mk 0 0 0 1) (Vec3.mk 0 0 1))
      (Vertex.mk (Color.mk 250 250 250 250) (Vec4.mk 1 0 0 1) (Vec3.mk 0 0 1))
      (Vertex.mk (Color.mk 250 250 250 250) (Vec4.mk 0 1 0 1) (Vec3.mk 0 0 1)))
    (Or.inl (by rw [hb0]; norm_num)) hfw hfw
  rw [h]

/-- Counterexample to C2: at brightness 1/2 a fully opaque white vertex
color comes out of the NDC stage with alpha 127, not 255 — the alpha
channel is scaled by the brightness just like R, G and B
(core.rs line 338). -/
theorem C2_alpha_scaled_counterexample :
    (0 : ℚ) < 1 / 2 ∧
    (ndcVertex
      (Vertex.mk (Color.mk 255 255 255 255) (Vec4.mk 0 0 0 1) (Vec3.mk 0 0 1))
      (1 / 2)).color.a = 127 ∧
    (ndcVertex
      (Vertex.mk (Color.mk 255 255 255 255) (Vec4.mk 0 0 0 1) (Vec3.mk 0 0 1))
      (1 / 2)).color.a ≠
    (Vertex.mk (Color.mk 255 255 255 255) (Vec4.mk 0 0 0 1)
      (Vec3.mk 0 0 1)).color.a := by
  have ha : (ndcVertex
      (Vertex.mk (Color.mk 255 255 255 255) (Vec4.mk 0 0 0 1) (Vec3.mk 0 0 1))
      (1 / 2)).color.a = 127 := by
    norm_num [ndcVertex, u8ofRat]
    decide
  exact ⟨by norm_num, ha, by rw [ha]; norm_num⟩

/-- C2 as the code has it: for positive brightness the NDC-stage color is
every channel of the vertex color — alpha included — multiplied by the
brightness and truncated back to u8. -/
theorem C2_brightness_scales_all_channels (v : Vertex Vec4) (b : ℚ)
    (h : 0 < b) :
    (ndcVertex v b).color = Color.mk
      (u8ofRat ((v.color.r : ℚ) * b)) (u8ofRat ((v.color.g : ℚ) * b))
      (u8ofRat ((v.color.b : ℚ) * b)) (u8ofRat ((v.color.a : ℚ) * b)) := rfl

/-- Witness for C2's amended statement at brightness 1/2 on opaque white. -/
theorem C2_brightness_witness :
    (0 : ℚ) < 1 / 2 ∧
    (ndcVertex
      (Vertex.mk (Color.mk 255 255 255 255) (Vec4.mk 0 0 0 1) (Vec3.mk 0 0 1))
      (1 / 2)).color = Color.mk
      (u8ofRat ((255 : ℚ) * (1 / 2))) (u8ofRat ((255 : ℚ) * (1 / 2)))
      (u8ofRat ((255 : ℚ) * (1 / 2))) (u8ofRat ((255 : ℚ) * (1 / 2))) := by
  refine ⟨by norm_num, ?_⟩
  have h := C2_brightness_scales_all_channels
    (Vertex.mk (Color.mk 255 255 255 255) (Vec4.mk 0 0 0 1) (Vec3.mk 0 0 1))
    (1 / 2) (by norm_num)
  rw [h]
  norm_num

/-- C5: when a face reaches rasterization, the position handed to the
viewport transform is (x/w, y/w, z): x and y perspective-divided, the
clip-space z kept un-divided. -/
theorem C5_ndc_divides_xy_keeps_z (sqrtFn : ℚ → ℚ)
    (rasterize : Face Vec3 → DisplayBuffer → Option DisplayBuffer)
    (model view projection : Mat4) (eye : Vec3) (t : Face Vec4)
    (buffer : DisplayBuffer) (fw tv tc : Face Vec4)
    (hfw : Face.transform t model = some fw)
    (ha0 : vertexBrightness sqrtFn eye fw.v0 ≤ 1)
    (ha1 : vertexBrightness sqrtFn eye fw.v1 ≤ 1)
    (ha2 : vertexBrightness sqrtFn eye fw.v2 ≤ 1)
    (hpos : 0 < vertexBrightness sqrtFn eye fw.v0 ∨
      0 < vertexBrightness sqrtFn eye fw.v1 ∨
      0 < vertexBrightness sqrtFn eye fw.v2)
    (htv : Face.transform fw view = some tv)
    (htc : Face.transform tv projection = some tc) :
    Mesh.renderFaceStep sqrtFn rasterize model view projection eye t buffer =
      rasterize (viewportFace buffer.width buffer.height
        (ndcFace tc
          (vertexBrightness sqrtFn eye fw.v0)
          (vertexBrightness sqrtFn eye fw.v1)
          (vertexBrightness sqrtFn eye fw.v2))) buffer ∧
    (∀ b : ℚ, ∀ v : Vertex Vec4, (ndcVertex v b).position =
      ⟨v.position.x / v.position.w, v.position.y / v.position.w,
        v.position.z⟩) := by
  constructor
  · simp only [Mesh.renderFaceStep, hfw, Option.some_bind]
    rw [if_pos ha0, if_pos ha1, if_pos ha2, if_pos hpos, htv,
      Option.some_bind, htc, Option.some_bind]
  · intro b v
    rfl

/-- Witness for C5: through identity transforms the concrete face of the
C3 setting reaches the rasterizer, and a vertex at clip position (8,6,5,2)
lands at NDC position (4,3,5): x and y halved by w = 2, z untouched. -/
theorem C5_ndc_witness :
    Mesh.renderFaceStep (fun _ => 1) (fun _ b => some b) id4 id4 id4
      (Vec3.mk 0 0 1)
      (Face.mk
        (Vertex.mk (Color.mk 250 250 250 250) (Vec4.mk 0 0 0 1) (Vec3.mk 0 0 1))
        (Vertex.mk (Color.mk 250 250 250 250) (Vec4.mk 1 0 0 1) (Vec3.mk 0 0 1))
        (Vertex.mk (Color.mk 250 250 250 250) (Vec4.mk 0 1 0 1) (Vec3.mk 0 0 1)))
      (DisplayBuffer.new 2 2 4) = some (DisplayBuffer.new 2 2 4) ∧
    (ndcVertex
      (Vertex.mk (Color.mk 1 1 1 1) (Vec4.mk 8 6 5 2) (Vec3.mk 0 0 1))
      1).position = Vec3.mk 4 3 5 := by
  have hfw : Face.transform
      (Face.mk
        (Vertex.mk (Color.mk 250 250 250 250) (Vec4.mk 0 0 0 1) (Vec3.mk 0 0 1))
        (Vertex.mk (Color.mk 250 250 250 250) (Vec4.mk 1 0 0 1) (Vec3.mk 0 0 1))
        (Vertex.mk (Color.mk 250 250 250 250) (Vec4.mk 0 1 0 1) (Vec3.mk 0 0 1)))
      id4 = some
      (Face.mk
        (Vertex.mk (Color.mk 250 250 250 250) (Vec4.mk 0 0 0 1) (Vec3.mk 0 0 1))
        (Vertex.mk (Color.mk 250 250 250 250) (Vec4.mk 1 0 0 1) (Vec3.mk 0 0 1))
        (Vertex.mk (Color.mk 250 250 250 250) (Vec4.mk 0 1 0 1) (Vec3.mk 0 0 1))) := by
    norm_num [Face.transform, try_inverse3, det3, ul3, id4, inv3aux,
      transpose3, mul3v, mul4v]
  have hb0 : vertexBrightness (fun _ => 1) (Vec3.mk 0 0 1)
      (Vertex.mk (Color.mk 250 250 250 250) (Vec4.mk 0 0 0 1)
        (Vec3.mk 0 0 1)) = 1 := by
    norm_num [vertexBrightness, dot3, normalizeWith, smul3, sub3, reduceDim]
  have hb1 : vertexBrightness (fun _ => 1) (Vec3.mk 0 0 1)
      (Vertex.mk (Color.mk 250 250 250 250) (Vec4.mk 1 0 0 1)
        (Vec3.mk 0 0 1)) = 1 := by
    norm_num [vertexBrightness, dot3, normalizeWith, smul3, sub3, reduceDim]
  have hb2 : vertexBrightness (fun _ => 1) (Vec3.mk 0 0 1)
      (Vertex.mk (Color.mk 250 250 250 250) (Vec4.mk 0 1 0 1)
        (Vec3.mk 0 0 1)) = 1 := by
    norm_num [vertexBrightness, dot3, normalizeWith, smul3, sub3, reduceDim]
  have h := C5_ndc_divides_xy_keeps_z (fun _ => 1) (fun _ b => some b)
    id4 id4 id4 (Vec3.mk 0 0 1)
    (Face.mk
      (Vertex.mk (Color.mk 250 250 250 250) (Vec4.mk 0 0 0 1) (Vec3.mk 0 0 1))
      (Vertex.mk (Color.mk 250 250 250 250) (Vec4.mk 1 0 0 1) (Vec3.mk 0 0 1))
      (Vertex.mk (Color.mk 250 250 250 250) (Vec4.mk 0 1 0 1) (Vec3.mk 0 0 1)))
    (DisplayBuffer.new 2 2 4)
    (Face.mk
      (Vertex.mk (Color.mk 250 250 250 250) (Vec4.mk 0 0 0 1) (Vec3.mk 0 0 1))
      (Vertex.mk (Color.mk 250 250 250 250) (Vec4.mk 1 0 0 1) (Vec3.mk 0 0 1))
      (Vertex.mk (Color.mk 250 250 250 250) (Vec4.mk 0 1 0 1) (Vec3.mk 0 0 1)))
    (Face.mk
      (Vertex.mk (Color.mk 250 250 250 250) (Vec4.mk 0 0 0 1) (Vec3.mk 0 0 1))
      (Vertex.mk (Color.mk 250 250 250 250) (Vec4.mk 1 0 0 1) (Vec3.mk 0 0 1))
      (Vertex.mk (Color.mk 250 250 250 250) (Vec4.mk 0 1 0 1) (Vec3.mk 0 0 1)))
    (Face.mk
      (Vertex.mk (Color.mk 250 250 250 250) (Vec4.mk 0 0 0 1) (Vec3.mk 0 0 1))
      (Vertex.mk (Color.mk 250 250 250 250) (Vec4.mk 1 0 0 1) (Vec3.mk 0 0 1))
      (Vertex.mk (Color.mk 250 250 250 250) (Vec4.mk 0 1 0 1) (Vec3.mk 0 0 1)))
    hfw (le_of_eq hb0) (le_of_eq hb1) (le_of_eq hb2)
    (Or.inl (by rw [hb0]; norm_num)) hfw hfw
  constructor
  · rw [h.1]
  · rw [h.2 1
      (Vertex.mk (Color.mk 1 1 1 1) (Vec4.mk 8 6 5 2) (Vec3.mk 0 0 1))]
    norm_num

/-- Modelled from the spec: the Triangle drawable of the Renderable lineage
(three raster-space vertices).  Its struct declaration is not under src/;
the fields are fixed by the uses in rasterization.rs. -/
structure Triangle (T : Type) where
  v0 : T
  v1 : T
  v2 : T
deriving DecidableEq

/-- Modelled from the spec: the LineSegment drawable (two raster-space
endpoints).  Its struct declaration is not under src/; the fields are fixed
by the uses in rasterization.rs. -/
structure LineSegment (T : Type) where
  v0 : T
  v1 : T
deriving DecidableEq

/-- A vector of usize components, the image of to_usize. -/
structure VecN where
  x : ℕ
  y : ℕ
  z : ℕ
deriving DecidableEq

/-- Modelled from the spec: Triangle::to_usize, the componentwise Rust
f32-to-usize cast of the three raster vertices (declaration not under src/;
semantics fixed by the cast and the uses in rasterization.rs). -/
def Triangle.to_usize (t : Triangle Vec3) : Triangle VecN :=
  ⟨⟨ratToUsize t.v0.x, ratToUsize t.v0.y, ratToUsize t.v0.z⟩,
   ⟨ratToUsize t.v1.x, ratToUsize t.v1.y, ratToUsize t.v1.z⟩,
   ⟨ratToUsize t.v2.x, ratToUsize t.v2.y, ratToUsize t.v2.z⟩⟩

/-- Modelled from the spec: is_top_flat is the tie v0.y == v1.y. -/
def Triangle.is_top_flat (t : Triangle Vec3) : Bool := t.v0.y == t.v1.y

/-- Modelled from the spec: is_bottom_flat is the tie v1.y == v2.y. -/
def Triangle.is_bottom_flat (t : Triangle Vec3) : Bool := t.v1.y == t.v2.y

/-- interpolate (rasterization.rs lines 11-13). -/
def interpolate (x y1 y0 x1 x0 : ℚ) : ℚ :=
  y0 + (x - x0) * (y1 - y0) / (x1 - x0)

/-- The Bresenham loop of LineSegment::render (rasterization.rs lines
75-92): plot, break at the endpoint, then advance x and y by the error
accumulator rule.  The source's unbounded loop is given dx + dy + 1 fuel,
enough for the at most max(dx,dy)+1 iterations of the algorithm; none
covers both a set_pixel panic and fuel exhaustion. -/
def bresLoop (color : Color) (z : ℚ) (x2 y2 dx dy sx sy : ℤ) :
    ℕ → ℤ → ℤ → ℤ → DisplayBuffer → Option DisplayBuffer
  | 0, _, _, _, _ => none
  | fuel + 1, x, y, err, buf =>
    match buf.set_pixel (i32ToUsize x) (i32ToUsize y) z color with
    | none => none
    | some b =>
      if x = x2 ∧ y = y2 then some b
      else
        bresLoop color z x2 y2 dx dy sx sy fuel
          (if 2 * err > -dy then x + sx else x)
          (if 2 * err < dx then y + sy else y)
          ((if 2 * err > -dy then err - dy else err) +
            (if 2 * err < dx then dx else 0))
          b

/-- LineSegment::render (rasterization.rs lines 55-94): bounds guard on
both endpoints, integer casts, then Bresenham with the start vertex's z for
every plotted pixel. -/
def LineSegment.render (l : LineSegment Vec3) (color : Color)
    (buffer : DisplayBuffer) : Option DisplayBuffer :=
  if ratToUsize l.v0.x ≥ buffer.width ∨ ratToUsize l.v0.y ≥ buffer.height then
    some buffer
  else if ratToUsize l.v1.x ≥ buffer.width ∨
      ratToUsize l.v1.y ≥ buffer.height then
    some buffer
  else
    bresLoop color l.v0.z (ratToI32 l.v1.x) (ratToI32 l.v1.y)
      ((ratToI32 l.v1.x - ratToI32 l.v0.x).natAbs : ℤ)
      ((ratToI32 l.v1.y - ratToI32 l.v0.y).natAbs : ℤ)
      (if ratToI32 l.v0.x < ratToI32 l.v1.x then 1 else -1)
      (if ratToI32 l.v0.y < ratToI32 l.v1.y then 1 else -1)
      (((ratToI32 l.v1.x - ratToI32 l.v0.x).natAbs : ℤ).toNat +
        (((ratToI32 l.v1.y - ratToI32 l.v0.y).natAbs : ℤ)).toNat + 1)
      (ratToI32 l.v0.x) (ratToI32 l.v0.y)
      (((ratToI32 l.v1.x - ratToI32 l.v0.x).natAbs : ℤ) -
        ((ratToI32 l.v1.y - ratToI32 l.v0.y).natAbs : ℤ))
      buffer

/-- The scanline loop of fill_bottom_flat_triangle (rasterization.rs lines
122-138): y counts down from v0.y to v1.y, x bounds advance by the inverse
slopes, z interpolated per endpoint; the iteration count is passed
explicitly as the size of the source's (v1.y ..= v0.y).rev() range. -/
def fillBotLoop (v0 v1 v2 : VecN) (inv1 inv2 : ℚ) (color : Color) :
    ℕ → ℕ → ℚ → ℚ → DisplayBuffer → Option DisplayBuffer
  | 0, _, _, _, buf => some buf
  | n + 1, y, xs, xe, buf =>
    match LineSegment.render
        ⟨⟨xs, (y : ℚ),
          interpolate (y : ℚ) (v0.z : ℚ) (v1.z : ℚ) (v0.y : ℚ) (v1.y : ℚ)⟩,
         ⟨xe, (y : ℚ),
          interpolate (y : ℚ) (v0.z : ℚ) (v2.z : ℚ) (v0.y : ℚ) (v2.y : ℚ)⟩⟩
        color buf with
    | none => none
    | some b =>
      fillBotLoop v0 v1 v2 inv1 inv2 color n (y - 1) (xs + inv1) (xe + inv2) b

/-- fill_bottom_flat_triangle (rasterization.rs lines 101-139): the bottom
vertices are ordered by the original f32 x, inverse slopes are formed from
the usize casts, and the scanlines run from the top vertex down. -/
def fill_bottom_flat_triangle (t : Triangle Vec3) (color : Color)
    (buffer : DisplayBuffer) : Option DisplayBuffer :=
  fillBotLoop t.to_usize.v0
    (if t.v1.x < t.v2.x then t.to_usize.v1 else t.to_usize.v2)
    (if t.v1.x < t.v2.x then t.to_usize.v2 else t.to_usize.v1)
    (((t.to_usize.v0.x : ℚ) -
        ((if t.v1.x < t.v2.x then t.to_usize.v1 else t.to_usize.v2).x : ℚ)) /
      (((if t.v1.x < t.v2.x then t.to_usize.v1 else t.to_usize.v2).y : ℚ) -
        (t.to_usize.v0.y : ℚ)))
    (((t.to_usize.v0.x : ℚ) -
        ((if t.v1.x < t.v2.x then t.to_usize.v2 else t.to_usize.v1).x : ℚ)) /
      (((if t.v1.x < t.v2.x then t.to_usize.v1 else t.to_usize.v2).y : ℚ) -
        (t.to_usize.v0.y : ℚ)))
    color
    (t.to_usize.v0.y + 1 -
      (if t.v1.x < t.v2.x then t.to_usize.v1 else t.to_usize.v2).y)
    t.to_usize.v0.y
    (t.to_usize.v0.x : ℚ) (t.to_usize.v0.x : ℚ) buffer

/-- The scanline loop of fill_top_flat_triangle (rasterization.rs lines
166-181): y counts up from v2.y to v0.y, x bounds retreat by the inverse
slopes. -/
def fillTopLoop (v0 v1 v2 : VecN) (inv1 inv2 : ℚ) (color : Color) :
    ℕ → ℕ → ℚ → ℚ → DisplayBuffer → Option DisplayBuffer
  | 0, _, _, _, buf => some buf
  | n + 1, y, xs, xe, buf =>
    match LineSegment.render
        ⟨⟨xs, (y : ℚ),
          interpolate (y : ℚ) (v0.z : ℚ) (v2.z : ℚ) (v0.y : ℚ) (v2.y : ℚ)⟩,
         ⟨xe, (y : ℚ),
          interpolate (y : ℚ) (v1.z : ℚ) (v2.z : ℚ) (v1.y : ℚ) (v2.y : ℚ)⟩⟩
        color buf with
    | none => none
    | some b =>
      fillTopLoop v0 v1 v2 inv1 inv2 color n (y + 1) (xs - inv1) (xe - inv2) b

/-- fill_top_flat_triangle (rasterization.rs lines 146-182): the top
vertices are ordered by the original f32 x, and the scanlines run from the
bottom vertex up. -/
def fill_top_flat_triangle (t : Triangle Vec3) (color : Color)
    (buffer : DisplayBuffer) : Option DisplayBuffer :=
  fillTopLoop
    (if t.v0.x < t.v1.x then t.to_usize.v0 else t.to_usize.v1)
    (if t.v0.x < t.v1.x then t.to_usize.v1 else t.to_usize.v0)
    t.to_usize.v2
    ((((if t.v0.x < t.v1.x then t.to_usize.v0 else t.to_usize.v1).x : ℚ) -
        (t.to_usize.v2.x : ℚ)) /
      ((t.to_usize.v2.y : ℚ) -
        ((if t.v0.x < t.v1.x then t.to_usize.v0 else t.to_usize.v1).y : ℚ)))
    ((((if t.v0.x < t.v1.x then t.to_usize.v1 else t.to_usize.v0).x : ℚ) -
        (t.to_usize.v2.x : ℚ)) /
      ((t.to_usize.v2.y : ℚ) -
        ((if t.v0.x < t.v1.x then t.to_usize.v1 else t.to_usize.v0).y : ℚ)))
    color
    ((if t.v0.x < t.v1.x then t.to_usize.v0 else t.to_usize.v1).y + 1 -
      t.to_usize.v2.y)
    t.to_usize.v2.y
    (t.to_usize.v2.x : ℚ) (t.to_usize.v2.x : ℚ) buffer

/-- Triangle::render (rasterization.rs lines 15-52): drop the triangle
whole when any usize raster coordinate reaches the buffer bounds, otherwise
fill directly when top- or bottom-flat, else split at the middle vertex's y
into a bottom-flat and a top-flat half.  The f32 division for the split
point is exact here; the source's division-by-zero inf cannot reach the
guarded branches any claim uses. -/
def Triangle.render (t : Triangle Vec3) (color : Color)
    (buffer : DisplayBuffer) : Option DisplayBuffer :=
  if t.to_usize.v0.x ≥ buffer.width ∨ t.to_usize.v0.y ≥ buffer.height ∨
      t.to_usize.v1.x ≥ buffer.width ∨ t.to_usize.v1.y ≥ buffer.height ∨
      t.to_usize.v2.x ≥ buffer.width ∨ t.to_usize.v2.y ≥ buffer.height then
    some buffer
  else if t.is_top_flat then
    fill_top_flat_triangle t color buffer
  else if t.is_bottom_flat then
    fill_bottom_flat_triangle t color buffer
  else
    match fill_bottom_flat_triangle
        ⟨t.v0, t.v1,
         ⟨t.v0.x + (t.v0.y - t.v1.y) / (t.v0.y - t.v2.y) * (t.v2.x - t.v0.x),
          t.v1.y, t.v1.z⟩⟩ color buffer with
    | none => none
    | some b =>
      fill_top_flat_triangle
        ⟨t.v1,
         ⟨t.v0.x + (t.v0.y - t.v1.y) / (t.v0.y - t.v2.y) * (t.v2.x - t.v0.x),
          t.v1.y, t.v1.z⟩,
         t.v2⟩ color b

/-- C4: a triangle with any usize raster coordinate at or beyond the buffer
width or height is dropped whole: render returns with the buffer bytes,
depth cells and metadata exactly as they were. -/
theorem C4_oob_triangle_dropped (t : Triangle Vec3) (color : Color)
    (buffer : DisplayBuffer)
    (h : t.to_usize.v0.x ≥ buffer.width ∨ t.to_usize.v0.y ≥ buffer.height ∨
      t.to_usize.v1.x ≥ buffer.width ∨ t.to_usize.v1.y ≥ buffer.height ∨
      t.to_usize.v2.x ≥ buffer.width ∨ t.to_usize.v2.y ≥ buffer.height) :
    t.render color buffer = some buffer := by
  unfold Triangle.render
  rw [if_pos h]

/-- Witness for C4: a triangle with a vertex at raster x = 5 on a 2x2
buffer is dropped, returning the buffer as given. -/
theorem C4_oob_witness :
    ((Triangle.mk (Vec3.mk 5 0 0) (Vec3.mk 0 1 0) (Vec3.mk 1 1 0) :
        Triangle Vec3).to_usize.v0.x ≥ (DisplayBuffer.new 2 2 4).width ∨
      (Triangle.mk (Vec3.mk 5 0 0) (Vec3.mk 0 1 0)
        (Vec3.mk 1 1 0)).to_usize.v0.y ≥ (DisplayBuffer.new 2 2 4).height ∨
      (Triangle.mk (Vec3.mk 5 0 0) (Vec3.mk 0 1 0)
        (Vec3.mk 1 1 0)).to_usize.v1.x ≥ (DisplayBuffer.new 2 2 4).width ∨
      (Triangle.mk (Vec3.mk 5 0 0) (Vec3.mk 0 1 0)
        (Vec3.mk 1 1 0)).to_usize.v1.y ≥ (DisplayBuffer.new 2 2 4).height ∨
      (Triangle.mk (Vec3.mk 5 0 0) (Vec3.mk 0 1 0)
        (Vec3.mk 1 1 0)).to_usize.v2.x ≥ (DisplayBuffer.new 2 2 4).width ∨
      (Triangle.mk (Vec3.mk 5 0 0) (Vec3.mk 0 1 0)
        (Vec3.mk 1 1 0)).to_usize.v2.y ≥ (DisplayBuffer.new 2 2 4).height) ∧
    (Triangle.mk (Vec3.mk 5 0 0) (Vec3.mk 0 1 0) (Vec3.mk 1 1 0) :
      Triangle Vec3).render (Color.mk 1 2 3 4) (DisplayBuffer.new 2 2 4) =
      some (DisplayBuffer.new 2 2 4) := by
  have h : (Triangle.mk (Vec3.mk 5 0 0) (Vec3.mk 0 1 0) (Vec3.mk 1 1 0) :
      Triangle Vec3).to_usize.v0.x ≥ (DisplayBuffer.new 2 2 4).width := by
    norm_num [Triangle.to_usize, ratToUsize, DisplayBuffer.new]
  exact ⟨Or.inl h,
    C4_oob_triangle_dropped
      (Triangle.mk (Vec3.mk 5 0 0) (Vec3.mk 0 1 0) (Vec3.mk 1 1 0))
      (Color.mk 1 2 3 4) (DisplayBuffer.new 2 2 4) (Or.inl h)⟩

/-- The buffer write a passing set_pixel performs (the body of the depth
test's then-branch, core.rs lines 200-204) at a precomputed index. -/
def writePixel (buf : DisplayBuffer) (index : ℕ) (z : ℚ) (c : Color) :
    DisplayBuffer :=
  { buf with
    z_buffer := upd buf.z_buffer index z
    data :=
      upd (upd (upd (upd buf.data
        (index * buf.bpp) c.r)
        (index * buf.bpp + 1) c.g)
        (index * buf.bpp + 2) c.b)
        (index * buf.bpp + 3) c.a }

/-- A passing in-bounds set_pixel is exactly a writePixel at the flipped-Y
index. -/
theorem set_pixel_eq_writePixel (buf : DisplayBuffer) (w h x y : ℕ)
    (z : ℚ) (c : Color) (hbw : buf.width = w) (hbh : buf.height = h)
    (hx : x < w) (hy : y < h)
    (hz : buf.z_buffer ((h - y - 1) * w + x) < z) :
    buf.set_pixel x y z c =
      some (writePixel buf ((h - y - 1) * w + x) z c) := by
  subst hbw hbh
  exact set_pixel_pass hx hy hz

/-- writePixel stores the new depth at its index. -/
theorem writePixel_z_self (b : DisplayBuffer) (i : ℕ) (z : ℚ) (c : Color) :
    (writePixel b i z c).z_buffer i = z := by
  simp [writePixel, upd]

/-- writePixel leaves every other depth cell alone. -/
theorem writePixel_z_other (b : DisplayBuffer) (i : ℕ) (z : ℚ) (c : Color)
    (j : ℕ) (h : j ≠ i) :
    (writePixel b i z c).z_buffer j = b.z_buffer j := by
  simp only [writePixel, upd]
  rw [if_neg h]

/-- writePixel stores the red byte at offset 0 of its pixel. -/
theorem writePixel_data_r (b : DisplayBuffer) (i : ℕ) (z : ℚ) (c : Color)
    (bpp : ℕ) (h : b.bpp = bpp) :
    (writePixel b i z c).data (i * bpp) = c.r := by
  subst h
  exact (upd4_reads b.data (i * b.bpp) c.r c.g c.b c.a).1

/-- writePixel stores the green byte at offset 1 of its pixel. -/
theorem writePixel_data_g (b : DisplayBuffer) (i : ℕ) (z : ℚ) (c : Color)
    (bpp : ℕ) (h : b.bpp = bpp) :
    (writePixel b i z c).data (i * bpp + 1) = c.g := by
  subst h
  exact (upd4_reads b.data (i * b.bpp) c.r c.g c.b c.a).2.1

/-- writePixel stores the blue byte at offset 2 of its pixel. -/
theorem writePixel_data_b (b : DisplayBuffer) (i : ℕ) (z : ℚ) (c : Color)
    (bpp : ℕ) (h : b.bpp = bpp) :
    (writePixel b i z c).data (i * bpp + 2) = c.b := by
  subst h
  exact (upd4_reads b.data (i * b.bpp) c.r c.g c.b c.a).2.2.1

/-- writePixel stores the alpha byte at offset 3 of its pixel. -/
theorem writePixel_data_a (b : DisplayBuffer) (i : ℕ) (z : ℚ) (c : Color)
    (bpp : ℕ) (h : b.bpp = bpp) :
    (writePixel b i z c).data (i * bpp + 3) = c.a := by
  subst h
  exact (upd4_reads b.data (i * b.bpp) c.r c.g c.b c.a).2.2.2

/-- writePixel leaves every data byte outside its pixel's four bytes
alone. -/
theorem writePixel_data_other (b : DisplayBuffer) (i : ℕ) (z : ℚ)
    (c : Color) (bpp j : ℕ) (h : b.bpp = bpp)
    (hj : j < i * bpp ∨ i * bpp + 3 < j) :
    (writePixel b i z c).data j = b.data j := by
  subst h
  simp only [writePixel, upd]
  have h3 : j ≠ i * b.bpp + 3 := by omega
  have h2 : j ≠ i * b.bpp + 2 := by omega
  have h1 : j ≠ i * b.bpp + 1 := by omega
  have h0 : j ≠ i * b.bpp := by omega
  rw [if_neg h3, if_neg h2, if_neg h1, if_neg h0]

/-- One unfolding step of the Bresenham loop on positive fuel. -/
theorem bresLoop_succ (color : Color) (z : ℚ) (x2 y2 dx dy sx sy : ℤ)
    (fuel : ℕ) (x y err : ℤ) (buf : DisplayBuffer) :
    bresLoop color z x2 y2 dx dy sx sy (fuel + 1) x y err buf =
      match buf.set_pixel (i32ToUsize x) (i32ToUsize y) z color with
      | none => none
      | some b =>
        if x = x2 ∧ y = y2 then some b
        else
          bresLoop color z x2 y2 dx dy sx sy fuel
            (if 2 * err > -dy then x + sx else x)
            (if 2 * err < dx then y + sy else y)
            ((if 2 * err > -dy then err - dy else err) +
              (if 2 * err < dx then dx else 0))
            b := rfl

set_option maxHeartbeats 1600000 in
/-- C9: drawing a line from (0,1) to (6,4) with any non-zero color and any
z beating the depth sentinel, into any freshly cleared RGBA buffer whose
width and height exceed those coordinates, puts a non-zero pixel at the
start coordinate's buffer index, and the Bresenham loop reaches and writes
the end coordinate too. -/
theorem C9_line_start_and_end (w h : ℕ) (c : Color) (z : ℚ)
    (hw : 6 < w) (hh : 4 < h)
    (hc : c ≠ Color.mk 0 0 0 0) (hz : F32_MIN < z) :
    ∃ buf', LineSegment.render
        (LineSegment.mk (Vec3.mk 0 1 z) (Vec3.mk 6 4 z)) c
        ((DisplayBuffer.new w h 4).clear) = some buf' ∧
      ¬(buf'.data (((h - 1 - 1) * w + 0) * 4) = 0 ∧
        buf'.data (((h - 1 - 1) * w + 0) * 4 + 1) = 0 ∧
        buf'.data (((h - 1 - 1) * w + 0) * 4 + 2) = 0 ∧
        buf'.data (((h - 1 - 1) * w + 0) * 4 + 3) = 0) ∧
      buf'.data (((h - 4 - 1) * w + 6) * 4) = c.r ∧
      buf'.z_buffer ((h - 4 - 1) * w + 6) = z := by
  have q0 : ratToUsize 0 = 0 := by norm_num [ratToUsize] <;> rfl
  have q1 : ratToUsize 1 = 1 := by norm_num [ratToUsize] <;> rfl
  have q6 : ratToUsize 6 = 6 := by norm_num [ratToUsize] <;> rfl
  have q4 : ratToUsize 4 = 4 := by norm_num [ratToUsize] <;> rfl
  have t0 : ratToI32 0 = 0 := by norm_num [ratToI32, ratTrunc] <;> rfl
  have t1 : ratToI32 1 = 1 := by norm_num [ratToI32, ratTrunc] <;> rfl
  have t6 : ratToI32 6 = 6 := by norm_num [ratToI32, ratTrunc] <;> rfl
  have t4 : ratToI32 4 = 4 := by norm_num [ratToI32, ratTrunc] <;> rfl
  have u0 : i32ToUsize 0 = 0 := by simp [i32ToUsize]
  have u1 : i32ToUsize 1 = 1 := by simp [i32ToUsize]
  have u2 : i32ToUsize 2 = 2 := by simp [i32ToUsize]
  have u3 : i32ToUsize 3 = 3 := by simp [i32ToUsize]
  have u4 : i32ToUsize 4 = 4 := by simp [i32ToUsize]
  have u5 : i32ToUsize 5 = 5 := by simp [i32ToUsize]
  have u6 : i32ToUsize 6 = 6 := by simp [i32ToUsize]
  have hrow1 : (h - 1 - 1) * w = (h - 2 - 1) * w + w := by
    have e : h - 1 - 1 = (h - 2 - 1) + 1 := by omega
    rw [e, Nat.succ_mul]
  have hrow2 : (h - 2 - 1) * w = (h - 3 - 1) * w + w := by
    have e : h - 2 - 1 = (h - 3 - 1) + 1 := by omega
    rw [e, Nat.succ_mul]
  have hrow3 : (h - 3 - 1) * w = (h - 4 - 1) * w + w := by
    have e : h - 3 - 1 = (h - 4 - 1) + 1 := by omega
    rw [e, Nat.succ_mul]
  have hrender : LineSegment.render
      (LineSegment.mk (Vec3.mk 0 1 z) (Vec3.mk 6 4 z)) c
      ((DisplayBuffer.new w h 4).clear) =
      bresLoop c z 6 4 6 3 1 1 10 0 1 3 ((DisplayBuffer.new w h 4).clear) := by
    simp only [LineSegment.render, q0, q1, q6, q4, t0, t1, t6, t4,
      DisplayBuffer.clear, DisplayBuffer.new]
    rw [if_neg (by omega), if_neg (by omega)]
    simp
  -- the seven depth reads, each at a pixel not yet written
  have g1 : ((DisplayBuffer.new w h 4).clear).z_buffer
      ((h - 1 - 1) * w + 0) < z := hz
  have g2 : (writePixel ((DisplayBuffer.new w h 4).clear)
      ((h - 1 - 1) * w + 0) z c).z_buffer ((h - 1 - 1) * w + 1) < z := by
    repeat rw [writePixel_z_other _ _ _ _ _ (by omega)]
    exact hz
  have g3 : (writePixel (writePixel ((DisplayBuffer.new w h 4).clear)
      ((h - 1 - 1) * w + 0) z c) ((h - 1 - 1) * w + 1) z c).z_buffer
      ((h - 2 - 1) * w + 2) < z := by
    repeat rw [writePixel_z_other _ _ _ _ _ (by omega)]
    exact hz
  have g4 : (writePixel (writePixel (writePixel
      ((DisplayBuffer.new w h 4).clear)
      ((h - 1 - 1) * w + 0) z c) ((h - 1 - 1) * w + 1) z c)
      ((h - 2 - 1) * w + 2) z c).z_buffer ((h - 2 - 1) * w + 3) < z := by
    repeat rw [writePixel_z_other _ _ _ _ _ (by omega)]
    exact hz
  have g5 : (writePixel (writePixel (writePixel (writePixel
      ((DisplayBuffer.new w h 4).clear)
      ((h - 1 - 1) * w + 0) z c) ((h - 1 - 1) * w + 1) z c)
      ((h - 2 - 1) * w + 2) z c) ((h - 2 - 1) * w + 3) z c).z_buffer
      ((h - 3 - 1) * w + 4) < z := by
    repeat rw [writePixel_z_other _ _ _ _ _ (by omega)]
    exact hz
  have g6 : (writePixel (writePixel (writePixel (writePixel (writePixel
      ((DisplayBuffer.new w h 4).clear)
      ((h - 1 - 1) * w + 0) z c) ((h - 1 - 1) * w + 1) z c)
      ((h - 2 - 1) * w + 2) z c) ((h - 2 - 1) * w + 3) z c)
      ((h - 3 - 1) * w + 4) z c).z_buffer ((h - 3 - 1) * w + 5) < z := by
    repeat rw [writePixel_z_other _ _ _ _ _ (by omega)]
    exact hz
  have g7 : (writePixel (writePixel (writePixel (writePixel (writePixel
      (writePixel ((DisplayBuffer.new w h 4).clear)
      ((h - 1 - 1) * w + 0) z c) ((h - 1 - 1) * w + 1) z c)
      ((h - 2 - 1) * w + 2) z c) ((h - 2 - 1) * w + 3) z c)
      ((h - 3 - 1) * w + 4) z c) ((h - 3 - 1) * w + 5) z c).z_buffer
      ((h - 4 - 1) * w + 6) < z := by
    repeat rw [writePixel_z_other _ _ _ _ _ (by omega)]
    exact hz
  -- the seven loop steps
  have e1 : bresLoop c z 6 4 6 3 1 1 (9 + 1) 0 1 3
      ((DisplayBuffer.new w h 4).clear) =
      bresLoop c z 6 4 6 3 1 1 9 1 1 0
      (writePixel ((DisplayBuffer.new w h 4).clear)
        ((h - 1 - 1) * w + 0) z c) := by
    rw [bresLoop_succ, u0, u1,
      set_pixel_eq_writePixel _ w h 0 1 z c rfl rfl (by omega) (by omega) g1]
    norm_num
  have e2 : bresLoop c z 6 4 6 3 1 1 (8 + 1) 1 1 0
      (writePixel ((DisplayBuffer.new w h 4).clear)
        ((h - 1 - 1) * w + 0) z c) =
      bresLoop c z 6 4 6 3 1 1 8 2 2 3
      (writePixel (writePixel ((DisplayBuffer.new w h 4).clear)
        ((h - 1 - 1) * w + 0) z c) ((h - 1 - 1) * w + 1) z c) := by
    rw [bresLoop_succ, u1,
      set_pixel_eq_writePixel _ w h 1 1 z c rfl rfl (by omega) (by omega) g2]
    norm_num
  have e3 : bresLoop c z 6 4 6 3 1 1 (7 + 1) 2 2 3
      (writePixel (writePixel ((DisplayBuffer.new w h 4).clear)
        ((h - 1 - 1) * w + 0) z c) ((h - 1 - 1) * w + 1) z c) =
      bresLoop c z 6 4 6 3 1 1 7 3 2 0
      (writePixel (writePixel (writePixel ((DisplayBuffer.new w h 4).clear)
        ((h - 1 - 1) * w + 0) z c) ((h - 1 - 1) * w + 1) z c)
        ((h - 2 - 1) * w + 2) z c) := by
    rw [bresLoop_succ, u2,
      set_pixel_eq_writePixel _ w h 2 2 z c rfl rfl (by omega) (by omega) g3]
    norm_num
  have e4 : bresLoop c z 6 4 6 3 1 1 (6 + 1) 3 2 0
      (writePixel (writePixel (writePixel ((DisplayBuffer.new w h 4).clear)
        ((h - 1 - 1) * w + 0) z c) ((h - 1 - 1) * w + 1) z c)
        ((h - 2 - 1) * w + 2) z c) =
      bresLoop c z 6 4 6 3 1 1 6 4 3 3
      (writePixel (writePixel (writePixel (writePixel
        ((DisplayBuffer.new w h 4).clear)
        ((h - 1 - 1) * w + 0) z c) ((h - 1 - 1) * w + 1) z c)
        ((h - 2 - 1) * w + 2) z c) ((h - 2 - 1) * w + 3) z c) := by
    rw [bresLoop_succ, u3, u2,
      set_pixel_eq_writePixel _ w h 3 2 z c rfl rfl (by omega) (by omega) g4]
    norm_num
  have e5 : bresLoop c z 6 4 6 3 1 1 (5 + 1) 4 3 3
      (writePixel (writePixel (writePixel (writePixel
        ((DisplayBuffer.new w h 4).clear)
        ((h - 1 - 1) * w + 0) z c) ((h - 1 - 1) * w + 1) z c)
        ((h - 2 - 1) * w + 2) z c) ((h - 2 - 1) * w + 3) z c) =
      bresLoop c z 6 4 6 3 1 1 5 5 3 0
      (writePixel (writePixel (writePixel (writePixel (writePixel
        ((DisplayBuffer.new w h 4).clear)
        ((h - 1 - 1) * w + 0) z c) ((h - 1 - 1) * w + 1) z c)
        ((h - 2 - 1) * w + 2) z c) ((h - 2 - 1) * w + 3) z c)
        ((h - 3 - 1) * w + 4) z c) := by
    rw [bresLoop_succ, u4, u3,
      set_pixel_eq_writePixel _ w h 4 3 z c rfl rfl (by omega) (by omega) g5]
    norm_num
  have e6 : bresLoop c z 6 4 6 3 1 1 (4 + 1) 5 3 0
      (writePixel (writePixel (writePixel (writePixel (writePixel
        ((DisplayBuffer.new w h 4).clear)
        ((h - 1 - 1) * w + 0) z c) ((h - 1 - 1) * w + 1) z c)
        ((h - 2 - 1) * w + 2) z c) ((h - 2 - 1) * w + 3) z c)
        ((h - 3 - 1) * w + 4) z c) =
      bresLoop c z 6 4 6 3 1 1 4 6 4 3
      (writePixel (writePixel (writePixel (writePixel (writePixel
        (writePixel ((DisplayBuffer.new w h 4).clear)
        ((h - 1 - 1) * w + 0) z c) ((h - 1 - 1) * w + 1) z c)
        ((h - 2 - 1) * w + 2) z c) ((h - 2 - 1) * w + 3) z c)
        ((h - 3 - 1) * w + 4) z c) ((h - 3 - 1) * w + 5) z c) := by
    rw [bresLoop_succ, u5, u3,
      set_pixel_eq_writePixel _ w h 5 3 z c rfl rfl (by omega) (by omega) g6]
    norm_num
  have e7 : bresLoop c z 6 4 6 3 1 1 (3 + 1) 6 4 3
      (writePixel (writePixel (writePixel (writePixel (writePixel
        (writePixel ((DisplayBuffer.new w h 4).clear)
        ((h - 1 - 1) * w + 0) z c) ((h - 1 - 1) * w + 1) z c)
        ((h - 2 - 1) * w + 2) z c) ((h - 2 - 1) * w + 3) z c)
        ((h - 3 - 1) * w + 4) z c) ((h - 3 - 1) * w + 5) z c) =
      some (writePixel (writePixel (writePixel (writePixel (writePixel
        (writePixel (writePixel ((DisplayBuffer.new w h 4).clear)
        ((h - 1 - 1) * w + 0) z c) ((h - 1 - 1) * w + 1) z c)
        ((h - 2 - 1) * w + 2) z c) ((h - 2 - 1) * w + 3) z c)
        ((h - 3 - 1) * w + 4) z c) ((h - 3 - 1) * w + 5) z c)
        ((h - 4 - 1) * w + 6) z c) := by
    rw [bresLoop_succ, u6, u4,
      set_pixel_eq_writePixel _ w h 6 4 z c rfl rfl (by omega) (by omega) g7]
    norm_num
  -- reads of the final buffer
  have fr : (writePixel (writePixel (writePixel (writePixel (writePixel
      (writePixel (writePixel ((DisplayBuffer.new w h 4).clear)
      ((h - 1 - 1) * w + 0) z c) ((h - 1 - 1) * w + 1) z c)
      ((h - 2 - 1) * w + 2) z c) ((h - 2 - 1) * w + 3) z c)
      ((h - 3 - 1) * w + 4) z c) ((h - 3 - 1) * w + 5) z c)
      ((h - 4 - 1) * w + 6) z c).data (((h - 1 - 1) * w + 0) * 4) = c.r := by
    repeat rw [writePixel_data_other _ _ _ _ 4 _ rfl (by omega)]
    exact writePixel_data_r _ _ _ _ 4 rfl
  have fg : (writePixel (writePixel (writePixel (writePixel (writePixel
      (writePixel (writePixel ((DisplayBuffer.new w h 4).clear)
      ((h - 1 - 1) * w + 0) z c) ((h - 1 - 1) * w + 1) z c)
      ((h - 2 - 1) * w + 2) z c) ((h - 2 - 1) * w + 3) z c)
      ((h - 3 - 1) * w + 4) z c) ((h - 3 - 1) * w + 5) z c)
      ((h - 4 - 1) * w + 6) z c).data
      (((h - 1 - 1) * w + 0) * 4 + 1) = c.g := by
    repeat rw [writePixel_data_other _ _ _ _ 4 _ rfl (by omega)]
    exact writePixel_data_g _ _ _ _ 4 rfl
  have fb : (writePixel (writePixel (writePixel (writePixel (writePixel
      (writePixel (writePixel ((DisplayBuffer.new w h 4).clear)
      ((h - 1 - 1) * w + 0) z c) ((h - 1 - 1) * w + 1) z c)
      ((h - 2 - 1) * w + 2) z c) ((h - 2 - 1) * w + 3) z c)
      ((h - 3 - 1) * w + 4) z c) ((h - 3 - 1) * w + 5) z c)
      ((h - 4 - 1) * w + 6) z c).data
      (((h - 1 - 1) * w + 0) * 4 + 2) = c.b := by
    repeat rw [writePixel_data_other _ _ _ _ 4 _ rfl (by omega)]
    exact writePixel_data_b _ _ _ _ 4 rfl
  have fa : (writePixel (writePixel (writePixel (writePixel (writePixel
      (writePixel (writePixel ((DisplayBuffer.new w h 4).clear)
      ((h - 1 - 1) * w + 0) z c) ((h - 1 - 1) * w + 1) z c)
      ((h - 2 - 1) * w + 2) z c) ((h - 2 - 1) * w + 3) z c)
      ((h - 3 - 1) * w + 4) z c) ((h - 3 - 1) * w + 5) z c)
      ((h - 4 - 1) * w + 6) z c).data
      (((h - 1 - 1) * w + 0) * 4 + 3) = c.a := by
    repeat rw [writePixel_data_other _ _ _ _ 4 _ rfl (by omega)]
    exact writePixel_data_a _ _ _ _ 4 rfl
  refine ⟨writePixel (writePixel (writePixel (writePixel (writePixel
      (writePixel (writePixel ((DisplayBuffer.new w h 4).clear)
      ((h - 1 - 1) * w + 0) z c) ((h - 1 - 1) * w + 1) z c)
      ((h - 2 - 1) * w + 2) z c) ((h - 2 - 1) * w + 3) z c)
      ((h - 3 - 1) * w + 4) z c) ((h - 3 - 1) * w + 5) z c)
      ((h - 4 - 1) * w + 6) z c, ?_, ?_,
    writePixel_data_r _ _ _ _ 4 rfl, writePixel_z_self _ _ _ _⟩
  · exact hrender.trans (e1.trans (e2.trans (e3.trans (e4.trans
      (e5.trans (e6.trans e7))))))
  · rintro ⟨pp1, pp2, pp3, pp4⟩
    exact hc (by
      have k1 := fr.symm.trans pp1
      have k2 := fg.symm.trans pp2
      have k3 := fb.symm.trans pp3
      have k4 := fa.symm.trans pp4
      cases c
      simp_all)

/-- Witness for C9: opaque white with depth 0 on the fresh 8x8 buffer. -/
theorem C9_line_witness :
    (6 : ℕ) < 8 ∧ (4 : ℕ) < 8 ∧
    (Color.mk 255 255 255 255 ≠ Color.mk 0 0 0 0) ∧ F32_MIN < 0 ∧
    (∃ buf', LineSegment.render
        (LineSegment.mk (Vec3.mk 0 1 0) (Vec3.mk 6 4 0))
        (Color.mk 255 255 255 255)
        ((DisplayBuffer.new 8 8 4).clear) = some buf' ∧
      ¬(buf'.data (((8 - 1 - 1) * 8 + 0) * 4) = 0 ∧
        buf'.data (((8 - 1 - 1) * 8 + 0) * 4 + 1) = 0 ∧
        buf'.data (((8 - 1 - 1) * 8 + 0) * 4 + 2) = 0 ∧
        buf'.data (((8 - 1 - 1) * 8 + 0) * 4 + 3) = 0) ∧
      buf'.data (((8 - 4 - 1) * 8 + 6) * 4) = (Color.mk 255 255 255 255).r ∧
      buf'.z_buffer ((8 - 4 - 1) * 8 + 6) = 0) := by
  refine ⟨by norm_num, by norm_num, by decide, by norm_num [F32_MIN], ?_⟩
  exact C9_line_start_and_end 8 8 (Color.mk 255 255 255 255) 0 (by norm_num)
    (by norm_num) (by decide) (by norm_num [F32_MIN])

end SWR
